import Mathlib

/-!
Verification development for the Trading-Bot-Data scraper repository.

The repository is a set of Python/Selenium scripts that scrape ordinal
(NFT) marketplace listings and extract fields via regex and selector
heuristics.  We give a shallow embedding of the pure record-building,
field-extraction and loop logic of the scripts:

* browser/DOM queries become explicit inputs (structures of optional
  strings and lists of strings describing what the page offered);
* Python dicts become insertion-ordered association lists (`Record`);
* the regular-expression searches used by the scripts are implemented
  directly (leftmost match, greedy runs, with the one backtracking point
  the patterns actually need);
* Python floats are modelled as exact rationals (`ℚ`);
* exceptions are modelled as `Option`/explicit fault flags.
-/

namespace Scraper

/-- A field value of a scraped record: a string, a number, or Python `None`. -/
inductive Value where
  | str (s : String)
  | num (q : ℚ)
  | null
deriving DecidableEq, Repr

/-- A Python dict with string keys, as an insertion-ordered association list. -/
abbrev Record := List (String × Value)

/-- Dict lookup (`d.get(k)` / `k in d`). -/
def rlookup : Record → String → Option Value
  | [], _ => Option.none
  | (k', v') :: rest, k => if k' = k then some v' else rlookup rest k

/-- Dict assignment `d[k] = v`: overwrite in place, else append (Python 3.7+
insertion-order semantics). -/
def rset : Record → String → Value → Record
  | [], k, v => [(k, v)]
  | (k', v') :: rest, k, v =>
    if k' = k then (k', v) :: rest else (k', v') :: rset rest k v

/-- The key list of a record, in order. -/
def rkeys (r : Record) : List String := r.map Prod.fst

/-- Dict merge `{**b, **d}`: entries of `d` update/extend `b`. -/
def rmerge (b d : Record) : Record := d.foldl (fun r kv => rset r kv.1 kv.2) b

/-! ### String scanning primitives

These implement the `re.search` behaviour of the patterns the scripts use:
scan start positions left to right; at each position match literal text,
greedy character-class runs, and (for `[:\s]*` / `\s*` followed by
`([^\n]+)`) the one-step backtracking Python's engine performs.
`Char.isWhitespace` stands in for Python's `\s`. -/

/-- Lowercase-hex-or-digit character class `[a-f0-9]`. -/
def isHexLower (c : Char) : Bool := c.isDigit || ('a' ≤ c && c ≤ 'f')

/-- Search for `LIT(\d+)`: literal `lit` followed by one or more digits;
returns the digit group of the leftmost match (`re.search` semantics). -/
def scanLitDigits (lit : List Char) : List Char → Option (List Char)
  | [] => if lit.isEmpty then Option.none else Option.none
  | c :: rest =>
    if lit.isPrefixOf (c :: rest) then
      let ds := ((c :: rest).drop lit.length).takeWhile Char.isDigit
      if ds.isEmpty then scanLitDigits lit rest else some ds
    else scanLitDigits lit rest

/-- Match `[a-f0-9]+i\d+` at the head of the input; returns the whole match. -/
def hexIdHere (l : List Char) : Option (List Char) :=
  let hex := l.takeWhile isHexLower
  match l.drop hex.length with
  | 'i' :: rest2 =>
    let ds := rest2.takeWhile Char.isDigit
    if hex.isEmpty || ds.isEmpty then Option.none
    else some (hex ++ 'i' :: ds)
  | _ => Option.none

/-- Search for `LIT([a-f0-9]+i\d+)`: literal `lit` followed by an inscription
id; returns the id group of the leftmost match. -/
def scanLitHexId (lit : List Char) : List Char → Option (List Char)
  | [] => Option.none
  | c :: rest =>
    if lit.isPrefixOf (c :: rest) then
      match hexIdHere ((c :: rest).drop lit.length) with
      | some m => some m
      | Option.none => scanLitHexId lit rest
    else scanLitHexId lit rest

/-- Last non-newline character of a skip-run (the backtracking case of
`[:\s]*([^\n]+)`: the capture degenerates to the last skippable non-newline
character). -/
def lastNonNl (run : List Char) : Option (List Char) :=
  match run.reverse.dropWhile (fun ch => ch = '\n') with
  | c :: _ => some [c]
  | [] => Option.none

/-- Match `SKIP*([^\n]+)` at the head of the input, where `SKIP` is the
skip-class (`\s` or `[:\s]`): greedy skip, then a non-empty non-newline
capture, backing off into the skip-run when the remainder starts with a
newline or is empty. -/
def capAfterSkip (skipColon : Bool) (after : List Char) : Option (List Char) :=
  let run := after.takeWhile (fun ch => ch.isWhitespace || (skipColon && ch = ':'))
  match after.drop run.length with
  | c :: rest =>
    if c = '\n' then lastNonNl run
    else some (c :: rest.takeWhile (fun ch => ch ≠ '\n'))
  | [] => lastNonNl run

/-- Search for `LABEL[:\s]*([^\n]+)` (when `skipColon`) or
`LABEL\s*([^\n]+)`: returns the capture of the leftmost match. -/
def labelCapture (skipColon : Bool) (lab : List Char) :
    List Char → Option (List Char)
  | [] => Option.none
  | c :: rest =>
    if lab.isPrefixOf (c :: rest) then
      match capAfterSkip skipColon ((c :: rest).drop lab.length) with
      | some cap => some cap
      | Option.none => labelCapture skipColon lab rest
    else labelCapture skipColon lab rest

/-- String-level wrapper for `labelCapture`. -/
def searchLabel (skipColon : Bool) (lab t : String) : Option String :=
  (labelCapture skipColon lab.data t.data).map (fun l => String.mk l)

/-- String-level wrapper for `scanLitDigits`. -/
def searchLitDigits (lit t : String) : Option String :=
  (scanLitDigits lit.data t.data).map (fun l => String.mk l)

/-- String-level wrapper for `scanLitHexId`. -/
def searchLitHexId (lit t : String) : Option String :=
  (scanLitHexId lit.data t.data).map (fun l => String.mk l)

/-- Python `sub in s` (substring test). -/
def containsSub (sub : List Char) : List Char → Bool
  | [] => sub.isEmpty
  | c :: rest => sub.isPrefixOf (c :: rest) || containsSub sub rest

/-- Python `sub in s` on strings. -/
def strContains (s sub : String) : Bool := containsSub sub.data s.data

/-- Python `s.split(sep)` (non-empty `sep`), fuelled by the input length so
that it is structurally recursive (and hence kernel-computable). -/
def splitOnChars (sep : List Char) : ℕ → List Char → List Char →
    List (List Char)
  | _, [], acc => [acc.reverse]
  | 0, l, acc => [acc.reverse ++ l]
  | fuel + 1, c :: rest, acc =>
    if !sep.isEmpty && sep.isPrefixOf (c :: rest) then
      acc.reverse :: splitOnChars sep fuel ((c :: rest).drop sep.length) []
    else splitOnChars sep fuel rest (c :: acc)

/-- Python `s.split(sep)` on strings. -/
def splitOnStr (s sep : String) : List String :=
  (splitOnChars sep.data s.data.length s.data []).map (fun l => String.mk l)

/-- Python `s.strip()` (structural replacement for `String.trim`). -/
def strTrim (s : String) : String :=
  String.mk
    (((s.data.dropWhile Char.isWhitespace).reverse.dropWhile
      Char.isWhitespace).reverse)

/-- Python `s.lower()` (ASCII, structural). -/
def strLower (s : String) : String := String.mk (s.data.map Char.toLower)

/-- Python `s.startswith(pat)` (structural). -/
def strStartsWith (s pat : String) : Bool := pat.data.isPrefixOf s.data

/-- Python `s.replace(pat, rep)` (non-empty `pat`). -/
def strReplace (s pat rep : String) : String :=
  String.intercalate rep (splitOnStr s pat)

/-- Python `s.split(sep)[1]`: everything after the first occurrence of
`sep` (the scripts only call this when `sep` occurs in `s`). -/
def splitAfterFirst (s sep : String) : String :=
  match splitOnStr s sep with
  | _ :: second :: rest => String.intercalate sep (second :: rest)
  | _ => ""

/-- Python `s.split(sep)[0]`. -/
def splitBeforeFirst (s sep : String) : String := (splitOnStr s sep).headD ""

/-- Python `s.rsplit(sep, 1)[0]`: everything before the last occurrence. -/
def rsplitBeforeLast (s sep : String) : String :=
  match (splitOnStr s sep).reverse with
  | _ :: butlast => String.intercalate sep butlast.reverse
  | [] => ""

/-- Python `s.isdigit()` (ASCII digits, non-empty). -/
def pyIsDigit (s : String) : Bool := s ≠ "" && s.data.all Char.isDigit

/-- Value of a digit string. -/
def digitsToNat (l : List Char) : ℕ :=
  l.foldl (fun acc c => 10 * acc + (c.toNat - '0'.toNat)) 0

/-- The rational denoted by a decimal numeral `\d+\.?\d*` (what Python's
`float(...)` / JS `parseFloat` parse on the matched groups, modelled
exactly). -/
def parseDec (s : String) : ℚ :=
  match splitOnStr s "." with
  | [intPart] => (digitsToNat intPart.data : ℚ)
  | [intPart, fracPart] =>
    (digitsToNat intPart.data : ℚ) +
      (digitsToNat fracPart.data : ℚ) / ((10 : ℚ) ^ fracPart.length)
  | _ => 0

/-! ### Magiceden.py — `CompleteMagicEdenScraper`

`MEElement` records what the DOM queries of `extract_basic_info` can
observe on one listing card; the pure regex/text logic is embedded
directly. -/

/-- One listing card as seen by `extract_basic_info` (Magiceden.py). -/
structure MEElement where
  href : Option String
  dataId : Option String
  dataInscriptionId : Option String
  imgSrc : Option String
  nameTexts : List String
  text : String
deriving DecidableEq, Repr

/-- Python `a or b` on optional strings (`None` and `''` are falsy). -/
def truthyOr (a b : Option String) : Option String :=
  match a with
  | some s => if s = "" then b else some s
  | Option.none => b

/-- Id strategy 1: regex `/ordinals/item-details/([a-f0-9]+i\d+)` on the href
(Magiceden.py lines 133-140). -/
def idFromHref (e : MEElement) : Option String :=
  match e.href with
  | some h =>
    if strContains h "/ordinals/item-details/" then
      searchLitHexId "/ordinals/item-details/" h
    else Option.none
  | Option.none => Option.none

/-- Id strategy 2: `data-id` / `data-inscription-id` attributes
(lines 143-149). -/
def idFromData (e : MEElement) : Option String :=
  match truthyOr e.dataId e.dataInscriptionId with
  | some s => if s = "" then Option.none else some s
  | Option.none => Option.none

/-- Rightmost `[?&]id=([a-f0-9]+i\d+)` in the given line fragment (the greedy
`.*` of the renderer pattern selects the last parameter occurrence). -/
def lastIdParam : List Char → Option (List Char) → Option (List Char)
  | [], acc => acc
  | c :: rest, acc =>
    if (c = '?' || c = '&') && ("id=".data.isPrefixOf rest) then
      match hexIdHere (rest.drop 3) with
      | some m => lastIdParam rest (some m)
      | Option.none => lastIdParam rest acc
    else lastIdParam rest acc

/-- Search for `renderer.*[?&]id=([a-f0-9]+i\d+)` (`.` does not cross
newlines). -/
def rendererIdScan : List Char → Option (List Char)
  | [] => Option.none
  | c :: rest =>
    if "renderer".data.isPrefixOf (c :: rest) then
      let lineRest := ((c :: rest).drop 8).takeWhile (fun ch => ch ≠ '\n')
      match lastIdParam lineRest Option.none with
      | some m => some m
      | Option.none => rendererIdScan rest
    else rendererIdScan rest

/-- Id strategy 3: the three image-URL patterns, in order (lines 152-169). -/
def idFromImg (e : MEElement) : Option String :=
  match e.imgSrc with
  | Option.none => Option.none
  | some src =>
    match searchLitHexId "/content/" src with
    | some i => some i
    | Option.none =>
      match (rendererIdScan src.data).map (fun l => String.mk l) with
      | some i => some i
      | Option.none => searchLitHexId "content%2F" src

/-- The ordered inscription-id strategy chain of `extract_basic_info`. -/
def idOfElement (e : MEElement) : Option String :=
  match idFromHref e with
  | some i => some i
  | Option.none =>
    match idFromData e with
    | some i => some i
    | Option.none => idFromImg e

/-- Name extraction (lines 181-192): first candidate text that is non-empty,
shorter than 100 characters and not the collection header. -/
def firstNameOf (e : MEElement) : Option String :=
  (e.nameTexts.map strTrim).find?
    (fun t => t ≠ "" && t.length < 100 && t ≠ "Sub 10k")

/-- `\s*BTC` test after the numeric group of the price pattern. -/
def btcAfter (l : List Char) : Bool :=
  "BTC".data.isPrefixOf (l.dropWhile Char.isWhitespace)

/-- Match `\.?\d*\s*BTC` after the integer digits; returns the rest of the
captured numeric group (taking the optional dot is forced: `\s*BTC` cannot
start with a dot, so no backtracking is possible here). -/
def priceTail (l : List Char) : Option (List Char) :=
  match l with
  | '.' :: rest =>
    let fs := rest.takeWhile Char.isDigit
    if btcAfter (rest.drop fs.length) then some ('.' :: fs) else Option.none
  | _ => if btcAfter l then some [] else Option.none

/-- Search for `(\d+\.?\d*)\s*BTC`; returns the numeric capture of the
leftmost match (Magiceden.py lines 195-201). -/
def scanPriceBtc : List Char → Option (List Char)
  | [] => Option.none
  | c :: rest =>
    if c.isDigit then
      let ds := (c :: rest).takeWhile Char.isDigit
      match priceTail ((c :: rest).drop ds.length) with
      | some tail => some (ds ++ tail)
      | Option.none => scanPriceBtc rest
    else scanPriceBtc rest

/-- `float(price_match.group(1))` of the BTC price pattern, as an exact
rational. -/
def priceBtcOf (t : String) : Option ℚ :=
  (scanPriceBtc t.data).map (fun l => parseDec (String.mk l))

/-- `extract_basic_info` (Magiceden.py lines 124-207): id strategy chain,
discard when no id is found or the id was already scraped, then optional
name and price fields. -/
def extract_basic_info (e : MEElement) (seen : List String) : Option Record :=
  match idOfElement e with
  | Option.none => Option.none
  | some i =>
    if i ∈ seen then Option.none
    else
      let r : Record := [("inscription_id", Value.str i)]
      let r := match firstNameOf e with
        | some n => rset r "name" (Value.str n)
        | Option.none => r
      let r := match priceBtcOf e.text with
        | some q => rset r "price_btc" (Value.num q)
        | Option.none => r
      some r

/-- The ten fields of the required-field fill loop (lines 595-599). -/
def meFillFields : List String :=
  ["name", "image_url", "content_type", "price_btc", "owner", "location",
   "value", "Sat_Rarity", "timestamp", "genesis_tx"]

/-- The CSV schema of Magiceden.py (`save_to_csv` fieldnames). -/
def meFieldnames : List String :=
  ["inscription_id", "name", "image_url", "content_type", "price_btc",
   "owner", "location", "value", "Sat_Rarity", "timestamp", "genesis_tx",
   "fetched_at"]

/-- `{**basic_info, **detailed_info, 'fetched_at': ts}` followed by the fill
loop that binds every still-missing declared field to `None`
(lines 588-599). -/
def completeData (b d : Record) (ts : String) : Record :=
  let merged := rset (rmerge b d) "fetched_at" (Value.str ts)
  meFillFields.foldl
    (fun r f => if (rlookup r f).isSome then r else rset r f Value.null) merged

/-- Mutable state of `scrape_all_ordinals`: the seen-id set and the output
list. -/
structure MEState where
  seen : List String
  out : List Record
deriving DecidableEq, Repr

/-- Body of the per-element loop (lines 568-613): stop adding past
`max_items`, extract basic info (which discards unidentified and
already-seen cards), re-check the seen set, extract detail info by clicking
(`detailOf`), complete the record, append it and remember the id.  The
unreachable missing-id fallback mirrors the per-item `except: continue`. -/
def processElement (detailOf : MEElement → Record) (ts : String)
    (maxItems : ℕ) (s : MEState) (e : MEElement) : MEState :=
  if maxItems ≤ s.out.length then s
  else
    match extract_basic_info e s.seen with
    | Option.none => s
    | some b =>
      match rlookup b "inscription_id" with
      | some (Value.str i) =>
        if i ∈ s.seen then s
        else
          let complete := completeData b (detailOf e) ts
          ⟨i :: s.seen, s.out ++ [complete]⟩
      | _ => s

/-- The batch loop of `scrape_all_ordinals` (lines 551-620): up to
`max_scroll_batches = 8` scroll batches, stopping when the target count is
reached, when a batch has no elements, or when a batch adds no new record. -/
def runBatches (detailOf : MEElement → Record) (ts : String) (maxItems : ℕ) :
    ℕ → List (List MEElement) → MEState → MEState
  | _, [], s => s
  | 0, _ :: _, s => s
  | fuel + 1, b :: bs, s =>
    if maxItems ≤ s.out.length then s
    else if b.isEmpty then s
    else
      let s' := b.foldl (processElement detailOf ts maxItems) s
      if s'.out.length = s.out.length then s'
      else runBatches detailOf ts maxItems fuel bs s'

/-- `runBatches` with fault injection: `fault = some k` raises the top-level
exception after `k` batches; the `except` branch of `scrape_all_ordinals`
(lines 630-632) returns the accumulated list unchanged. -/
def runBatchesFault (detailOf : MEElement → Record) (ts : String)
    (maxItems : ℕ) :
    ℕ → List (List MEElement) → Option ℕ → MEState → MEState
  | _, _, some 0, s => s
  | _, [], _, s => s
  | 0, _ :: _, _, s => s
  | fuel + 1, b :: bs, fault, s =>
    if maxItems ≤ s.out.length then s
    else if b.isEmpty then s
    else
      let s' := b.foldl (processElement detailOf ts maxItems) s
      if s'.out.length = s.out.length then s'
      else
        runBatchesFault detailOf ts maxItems fuel bs
          (fault.map (fun k => k - 1)) s'

/-- `scrape_all_ordinals`: run the batch loop from an empty seen-set and
output list; on a top-level fault the partial list is still returned. -/
def scrape_all_ordinals (detailOf : MEElement → Record) (ts : String)
    (maxItems : ℕ) (batches : List (List MEElement)) (fault : Option ℕ) :
    List Record :=
  (runBatchesFault detailOf ts maxItems 8 batches fault ⟨[], []⟩).out

/-- The rarity label patterns of `extract_rarity_info`, in order
(lines 452-457), lowercased for the `re.IGNORECASE` search. -/
def rarityLabels : List String :=
  ["rarity", "sat rarity", "rarity type", "satellite rarity"]

/-- First label pattern (in order) with a match. -/
def firstLabelCapture : List String → String → Option String
  | [], _ => Option.none
  | lab :: rest, t =>
    match searchLabel true lab t with
    | some c => some c
    | Option.none => firstLabelCapture rest t

/-- The keyword mapping of `extract_rarity_info` (lines 463-477). -/
def mapRarity (r : String) : String :=
  if strContains r "common" || strContains r "standard" then "common"
  else if strContains r "uncommon" then "uncommon"
  else if strContains r "rare" then "rare"
  else if strContains r "epic" then "epic"
  else if strContains r "legendary" then "legendary"
  else if strContains r "mythic" then "mythic"
  else "N/A"

/-- `extract_rarity_info` (Magiceden.py lines 443-487), returning the
`Sat_Rarity` value.  `modalText = none` is the exception path (modal lookup
failed), which also yields the `'N/A'` sentinel. -/
def extract_rarity_info (modalText : Option String) : String :=
  match modalText with
  | Option.none => "N/A"
  | some t =>
    match firstLabelCapture rarityLabels (strLower t) with
    | some cap => mapRarity (strLower (strTrim cap))
    | Option.none => "N/A"

/-! ### model.py — `extract_ordinal_details_from_modal`

`ModalPage` records what the DOM/clipboard queries of the modal extractor
can observe; all text parsing is embedded directly.  A `none`/empty
component models both "nothing found" and the swallowed per-step
exception. -/

/-- The modal detail view of one ordinal, as observed by model.py. -/
structure ModalPage where
  nameHeader : Option String
  priceValue : Option String
  priceCurrency : Option String
  detailTexts : List String
  mempoolAddrHrefs : List String
  userHrefs : List String
  inscriptionLinks : List String
  genesisLinks : Option (List String)
  locationLinks : Option (List String)
  clipboardText : Option String
deriving DecidableEq, Repr

/-- The initial dict of `extract_ordinal_details_from_modal`
(model.py lines 196-204): every declared field bound to `'Unknown'`, plus
the scrape time and the ordinal index. -/
def modalDefaults (t : String) (idx : ℕ) : Record :=
  [("name", Value.str "Unknown"), ("inscription_number", Value.str "Unknown"),
   ("price", Value.str "Unknown"), ("owner", Value.str "Unknown"),
   ("content_type", Value.str "Unknown"), ("created", Value.str "Unknown"),
   ("location", Value.str "Unknown"), ("inscription_id", Value.str "Unknown"),
   ("rarity", Value.str "Unknown"), ("sat_number", Value.str "Unknown"),
   ("sat_name", Value.str "Unknown"),
   ("genesis_transaction", Value.str "Unknown"),
   ("output", Value.str "Unknown"), ("image_url", Value.str "Unknown"),
   ("full_details_text", Value.str "Unknown"), ("scraped_time", Value.str t),
   ("ordinal_index", Value.num idx)]

/-- The declared fields of the model.py record, in dict order. -/
def modalKeys : List String :=
  ["name", "inscription_number", "price", "owner", "content_type", "created",
   "location", "inscription_id", "rarity", "sat_number", "sat_name",
   "genesis_transaction", "output", "image_url", "full_details_text",
   "scraped_time", "ordinal_index"]

/-- Name parsing from the `h3` header text (model.py lines 212-223). -/
def modalNameOf (t : String) : Option String :=
  if strContains t "Inscription #" then
    match searchLitDigits "Inscription #" t with
    | some d => some ("Inscription " ++ d)
    | Option.none => Option.none
  else if strContains t "#" && !(strStartsWith t "#") then
    let collection := strTrim (splitBeforeFirst t "#")
    some (if collection ≠ "" then collection else t)
  else if strStartsWith t "#" && decide (1 < t.length) then
    let part := strTrim (String.mk (t.data.drop 1))
    some (if pyIsDigit part then "Inscription " ++ part else "Inscription")
  else some t

/-- The name extraction step (lines 207-225). -/
def nameStep (p : ModalPage) (r : Record) : Record :=
  match p.nameHeader with
  | Option.none => r
  | some raw =>
    match modalNameOf (strTrim raw) with
    | some n => rset r "name" (Value.str n)
    | Option.none => r

/-- The price extraction step (lines 228-239). -/
def priceStep (p : ModalPage) (r : Record) : Record :=
  match p.priceValue, p.priceCurrency with
  | some pv, some pc =>
    let pv := strTrim pv
    let pc := strTrim pc
    if pv ≠ "" && pc ≠ "" then rset r "price" (Value.str (pv ++ " " ++ pc))
    else r
  | _, _ => r

/-- `details_text` (lines 253-275): the first displayed candidate whose
stripped text is longer than 50 characters, else the empty string. -/
def detailsTextOf (p : ModalPage) : String :=
  ((p.detailTexts.map strTrim).find?
    (fun t => decide (t ≠ "") && decide (50 < t.length))).getD ""

/-- Scan the split lines for `lab` at position `i` with a valid value at
`i + 1` (used for Inscription Number, lines 281-287). -/
def scanLabelNext1 (lab : String) : List String → Option String
  | [] => Option.none
  | l :: rest =>
    if strTrim l = lab then
      match rest with
      | v :: _ =>
        let v' := strTrim v
        if v' ≠ "" && v' ≠ "◉" then some v' else scanLabelNext1 lab rest
      | [] => Option.none
    else scanLabelNext1 lab rest

/-- Scan the split lines for `lab` at position `i` with a valid value at
`i + 2` (used for Sat Number / Sat Name, lines 448-461). -/
def scanLabelNext2 (lab : String) : List String → Option String
  | [] => Option.none
  | l :: rest =>
    if strTrim l = lab then
      match rest with
      | _ :: v :: _ =>
        let v' := strTrim v
        if v' ≠ "" && v' ≠ "◉" then some v' else scanLabelNext2 lab rest
      | _ => scanLabelNext2 lab rest
    else scanLabelNext2 lab rest

/-- The inscription-number step (lines 280-287), guarded by a non-empty
details text. -/
def inscriptionNumberStep (dt : String) (r : Record) : Record :=
  if dt ≠ "" then
    match scanLabelNext1 "Inscription Number" (splitOnStr dt "\n") with
    | some v => rset r "inscription_number" (Value.str v)
    | Option.none => r
  else r

/-- Owner method 1: first `mempool.space/address/` link (lines 292-299). -/
def ownerFromMempool (hrefs : List String) : Option String :=
  (hrefs.find? (fun h => strContains h "mempool.space/address/")).map
    (fun h => splitAfterFirst h "mempool.space/address/")

/-- Owner method 2: first `/u/` profile link, query string stripped
(lines 302-311). -/
def ownerFromUser (hrefs : List String) : Option String :=
  (hrefs.find? (fun h => strContains h "/u/")).map
    (fun h => splitBeforeFirst (splitAfterFirst h "/u/") "?")

/-- Owner method 3: regex `Owner\s*([^\n]+)` on the details text
(lines 314-317). -/
def ownerFromRegex (dt : String) : Option String :=
  (searchLabel false "Owner" dt).map strTrim

/-- The three-method owner chain (lines 289-319): each later method runs
only while the field still holds `'Unknown'`. -/
def ownerStep (p : ModalPage) (dt : String) (r : Record) : Record :=
  let r1 := match ownerFromMempool p.mempoolAddrHrefs with
    | some a => rset r "owner" (Value.str a)
    | Option.none => r
  let r2 :=
    if rlookup r1 "owner" = some (Value.str "Unknown") then
      match ownerFromUser p.userHrefs with
      | some a => rset r1 "owner" (Value.str a)
      | Option.none => r1
    else r1
  if rlookup r2 "owner" = some (Value.str "Unknown") then
    match ownerFromRegex dt with
    | some a => rset r2 "owner" (Value.str a)
    | Option.none => r2
  else r2

/-- The inscription-id step (lines 321-337): link extraction, with the
regex fallback taken only when no `/inscription/` link list was found. -/
def inscriptionIdStep (p : ModalPage) (dt : String) (r : Record) : Record :=
  if p.inscriptionLinks.isEmpty then
    match (searchLabel false "Inscription ID" dt).map strTrim with
    | some v => rset r "inscription_id" (Value.str v)
    | Option.none => r
  else
    match p.inscriptionLinks.find? (fun h => strContains h "/inscription/") with
    | some h =>
      rset r "inscription_id" (Value.str (splitAfterFirst h "/inscription/"))
    | Option.none => r

/-- First transaction hash among the given links, `'Unknown'` if none
(lines 353-365 / 396-408). -/
def txHashFromLinks (links : List String) : String :=
  match links.find? (fun h =>
      strContains h "mempool.space/tx/" ||
      strContains h "ord-mirror.magiceden.dev/tx/") with
  | some h =>
    if strContains h "mempool.space/tx/" then
      splitAfterFirst h "mempool.space/tx/"
    else splitAfterFirst h "ord-mirror.magiceden.dev/tx/"
  | Option.none => "Unknown"

/-- The genesis-transaction step (lines 339-380): container links first,
regex fallback when the container is missing or yields `'Unknown'`. -/
def genesisStep (p : ModalPage) (dt : String) (r : Record) : Record :=
  match p.genesisLinks with
  | some links =>
    let h := txHashFromLinks links
    if h ≠ "Unknown" then rset r "genesis_transaction" (Value.str h)
    else
      match (searchLabel false "Genesis Transaction" dt).map strTrim with
      | some v => rset r "genesis_transaction" (Value.str v)
      | Option.none => r
  | Option.none =>
    match (searchLabel false "Genesis Transaction" dt).map strTrim with
    | some v => rset r "genesis_transaction" (Value.str v)
    | Option.none => r

/-- The location/output step (lines 382-441): clipboard value if truthy,
else the container transaction hash (`'Unknown'` included — Python's
`elif full_tx_hash:` is true for any non-empty string), else the regex
fallback; nothing at all when the container is missing. -/
def locationStep (p : ModalPage) (dt : String) (r : Record) : Record :=
  match p.locationLinks with
  | Option.none => r
  | some links =>
    let ftx := txHashFromLinks links
    let clip := match p.clipboardText with
      | some s => if s = "" then Option.none else some s
      | Option.none => Option.none
    match clip with
    | some loc =>
      let r1 := rset r "location" (Value.str loc)
      if strContains loc ":" then
        rset r1 "output" (Value.str (rsplitBeforeLast loc ":"))
      else r1
    | Option.none =>
      if ftx ≠ "" then
        rset (rset r "location" (Value.str ftx)) "output" (Value.str ftx)
      else
        match (searchLabel false "Location" dt).map strTrim with
        | some v => rset r "location" (Value.str v)
        | Option.none => r

/-- The sat-number / sat-name step (lines 443-461). -/
def satStep (dt : String) (r : Record) : Record :=
  if dt ≠ "" then
    let lines := splitOnStr dt "\n"
    let r1 := match scanLabelNext2 "Sat Number" lines with
      | some v => rset r "sat_number" (Value.str v)
      | Option.none => r
    match scanLabelNext2 "Sat Name" lines with
    | some v => rset r1 "sat_name" (Value.str v)
    | Option.none => r1
  else r

/-- The image-URL construction step (lines 463-466). -/
def imageUrlStep (r : Record) : Record :=
  match rlookup r "inscription_id" with
  | some (Value.str id) =>
    if id ≠ "Unknown" then
      rset r "image_url"
        (Value.str ("https://ord-mirror.magiceden.dev/content/" ++ id))
    else r
  | _ => r

/-- The content-type / created / rarity regex step (lines 468-480). -/
def otherFieldsStep (dt : String) (r : Record) : Record :=
  if dt ≠ "" then
    let r1 := match (searchLabel false "Content Type" dt).map strTrim with
      | some v => rset r "content_type" (Value.str v)
      | Option.none => r
    let r2 := match (searchLabel false "Created" dt).map strTrim with
      | some v => rset r1 "created" (Value.str v)
      | Option.none => r1
    match (searchLabel false "Rarity" dt).map strTrim with
    | some v => rset r2 "rarity" (Value.str v)
    | Option.none => r2
  else r

/-- `extract_ordinal_details_from_modal` (model.py lines 193-485): the
defaults dict threaded through every extraction step, in source order. -/
def extract_ordinal_details_from_modal (p : ModalPage) (idx : ℕ)
    (t : String) : Record :=
  let dt := detailsTextOf p
  let r0 := modalDefaults t idx
  let r1 := nameStep p r0
  let r2 := priceStep p r1
  let r3 := rset r2 "full_details_text" (Value.str dt)
  let r4 := inscriptionNumberStep dt r3
  let r5 := ownerStep p dt r4
  let r6 := inscriptionIdStep p dt r5
  let r7 := genesisStep p dt r6
  let r8 := locationStep p dt r7
  let r9 := satStep dt r8
  let r10 := imageUrlStep r9
  otherFieldsStep dt r10

/-- Truthiness of the record in `if details:` (model.py line 127): a Python
dict is truthy iff non-empty. -/
def keepModal (r : Record) : Bool := !r.isEmpty

/-- The index loop of `extract_multiple_ordinals` (lines 100-141) with its
per-record file write (lines 129-130): a `none` page is an index whose card
never loads (break); every kept record is appended and the whole list is
immediately dumped to the output file.  The second component is the write
trace: the successive file contents. -/
def extractMultipleGo (t : String) :
    List (Option ModalPage) → ℕ → List Record → List (List Record) →
      List Record × List (List Record)
  | [], _, acc, ws => (acc, ws)
  | Option.none :: _, _, acc, ws => (acc, ws)
  | some p :: rest, idx, acc, ws =>
    let d := extract_ordinal_details_from_modal p idx t
    if keepModal d then
      extractMultipleGo t rest (idx + 1) (acc ++ [d]) (ws ++ [acc ++ [d]])
    else extractMultipleGo t rest (idx + 1) acc ws

/-- `extract_multiple_ordinals` (model.py lines 64-151): returns the
record list and the file-write trace. -/
def extract_multiple_ordinals (t : String) (pages : List (Option ModalPage))
    (startIdx : ℕ) : List Record × List (List Record) :=
  extractMultipleGo t pages startIdx [] []

/-- `extractMultipleGo` with fault injection: `fault = some k` raises the
top-level exception after `k` processed indices; the `except` branch
(lines 146-148) returns the accumulated `all_data`. -/
def extractMultipleFault (t : String) :
    List (Option ModalPage) → Option ℕ → ℕ → List Record →
      List Record
  | _, some 0, _, acc => acc
  | [], _, _, acc => acc
  | Option.none :: _, _, _, acc => acc
  | some p :: rest, fault, idx, acc =>
    let d := extract_ordinal_details_from_modal p idx t
    if keepModal d then
      extractMultipleFault t rest (fault.map (fun k => k - 1)) (idx + 1)
        (acc ++ [d])
    else extractMultipleFault t rest (fault.map (fun k => k - 1)) (idx + 1) acc

/-! ### simple.py — `extract_ordinal_data` -/

/-- One card of the card-by-card scraper: the card text, the detail-view
queries, and the outcome of the modal content-URL search (simple.py
lines 176-251), abstracted as an optional URL. -/
structure SimpleCard where
  text : String
  nameHeader : Option String
  priceValue : Option String
  priceCurrency : Option String
  imgSrc : Option String
  modalContentUrl : Option String
  fallbackNames : List String
deriving DecidableEq, Repr

/-- The record built per card (simple.py lines 68-74). -/
structure SimpleRecord where
  index : ℕ
  name : String
  inscription_number : String
  image_url : String
  price : String
deriving DecidableEq, Repr

/-- Card-level inscription number (lines 50-60): first stripped non-empty
line matching `#(\d+)`, else the `'Unknown'` sentinel. -/
def cardNumberOf (c : SimpleCard) : String :=
  let lines := ((splitOnStr c.text "\n").map strTrim).filter (fun l => l ≠ "")
  match lines.findSome? (fun l =>
      if strContains l "#" then
        (searchLitDigits "#" l).map (fun d => "#" ++ d)
      else Option.none) with
  | some n => n
  | Option.none => "Unknown"

/-- Detail-view name/number parsing (lines 93-114): returns the name and
number to assign, if any. -/
def detailNameNum (t : String) : Option String × Option String :=
  if strContains t "Inscription #" then
    match searchLitDigits "Inscription #" t with
    | some d => (some ("Inscription " ++ d), some ("#" ++ d))
    | Option.none => (Option.none, Option.none)
  else if strContains t "#" then
    match searchLitDigits "#" t with
    | some d => (some t, some ("#" ++ d))
    | Option.none => (Option.none, Option.none)
  else (some t, Option.none)

/-- Detail-view phase (lines 85-116): name/number from the header text. -/
def detailPhase (c : SimpleCard) (o : SimpleRecord) : SimpleRecord :=
  match c.nameHeader with
  | some raw =>
    let pair := detailNameNum (strTrim raw)
    let o1 := match pair.2 with
      | some n => { o with inscription_number := n }
      | Option.none => o
    match pair.1 with
    | some n => { o1 with name := n }
    | Option.none => o1
  | Option.none => o

/-- Card-number fallback phase (lines 118-124). -/
def cardNumPhase (cardNum : String) (o : SimpleRecord) : SimpleRecord :=
  if o.inscription_number = "Unknown" && cardNum ≠ "Unknown" then
    let o1 := { o with inscription_number := cardNum }
    if o1.name = "Unknown" then
      { o1 with name := "Inscription " ++ strReplace cardNum "#" "" }
    else o1
  else o

/-- Fallback-name phase (lines 126-138). -/
def fallbackNamePhase (c : SimpleCard) (o : SimpleRecord) : SimpleRecord :=
  if o.name = "Unknown" then
    match (c.fallbackNames.map strTrim).find?
        (fun t => t ≠ "" && t ≠ "Unknown" && decide (t.length < 50)) with
    | some n => { o with name := n }
    | Option.none => o
  else o

/-- Price phase (lines 148-162). -/
def pricePhase (c : SimpleCard) (o : SimpleRecord) : SimpleRecord :=
  match c.priceValue, c.priceCurrency with
  | some pv, some pc =>
    let pv := strTrim pv
    let pc := strTrim pc
    if pv ≠ "" && pc ≠ "" then { o with price := pv ++ " " ++ pc } else o
  | _, _ => o

/-- Image/content-URL phase (lines 165-251): an img tag's `src` when
truthy, else the outcome of the modal content-URL search. -/
def imagePhase (c : SimpleCard) (o : SimpleRecord) : SimpleRecord :=
  match c.imgSrc with
  | some src => if src ≠ "" then { o with image_url := src } else o
  | Option.none =>
    match c.modalContentUrl with
    | some u => { o with image_url := u }
    | Option.none => o

/-- Build the record for one card (simple.py lines 68-251): detail-view
name/number, card-number fallback, fallback name search, price and
image/content URL, in source order. -/
def buildOrdinal (c : SimpleCard) (cardNum : String) (idx : ℕ) :
    SimpleRecord :=
  imagePhase c (pricePhase c (fallbackNamePhase c
    (cardNumPhase cardNum (detailPhase c
      ⟨idx, "Unknown", "Unknown", "Unknown", "Unknown"⟩))))

/-- Loop state of `extract_ordinal_data` (simple.py lines 29-36). -/
structure SimpleState where
  i : ℕ
  processed : ℕ
  seen : List String
  out : List SimpleRecord
deriving DecidableEq, Repr

/-- The card loop of simple.py (lines 37-275): position `i` starts at 1,
at most 10 processed cards, positions below 20; the pre-click and the
final duplicate checks consult the seen set only for recognized
(non-`'Unknown'`) numbers, and only recognized numbers are remembered. -/
def simpleLoop (cards : List SimpleCard) : ℕ → SimpleState → SimpleState
  | 0, s => s
  | fuel + 1, s =>
    if s.processed < 10 ∧ s.i < 20 then
      match cards.get? s.i with
      | Option.none => s
      | some c =>
        let cardNum := cardNumberOf c
        if cardNum ≠ "Unknown" ∧ cardNum ∈ s.seen then
          simpleLoop cards fuel { s with i := s.i + 1 }
        else
          let o := buildOrdinal c cardNum (s.processed + 1)
          if o.inscription_number ≠ "Unknown" ∧ o.inscription_number ∈ s.seen
          then simpleLoop cards fuel { s with i := s.i + 1 }
          else
            let seen' :=
              if o.inscription_number ≠ "Unknown" then
                o.inscription_number :: s.seen
              else s.seen
            simpleLoop cards fuel
              ⟨s.i + 1, s.processed + 1, seen', s.out ++ [o]⟩
    else s

/-- `extract_ordinal_data` (simple.py lines 9-306): run the card loop; a
top-level fault models an exception outside the per-card handler, whose
`except` branch (lines 299-301) returns the empty list. -/
def extract_ordinal_data (cards : List SimpleCard) (topFault : Bool) :
    List SimpleRecord :=
  if topFault then []
  else (simpleLoop cards 19 ⟨1, 0, [], []⟩).out

/-! ### inscriptionDetail.py -/

/-- A JSON object returned by the inscription APIs, as a string-valued
association list (`data.get(k)`). -/
abbrev ApiData := List (String × String)

/-- `data.get(k)`. -/
def apiGet (d : ApiData) (k : String) : Option String :=
  (d.find? (fun kv => kv.1 = k)).map Prod.snd

/-- Python `a or b or ... or dflt` on strings: first truthy (non-`None`,
non-empty) candidate, else the final operand. -/
def firstTruthy : List (Option String) → String → String
  | [], dflt => dflt
  | a :: rest, dflt =>
    match a with
    | some s => if s = "" then firstTruthy rest dflt else s
    | Option.none => firstTruthy rest dflt

/-- The declared fields of `extract_fields`, in dict order. -/
def idFieldKeys : List String :=
  ["name", "inscription_id", "price", "owner", "image_url", "previous",
   "root", "mime_type", "content_type", "inscription_number", "Sat_Rarity",
   "genesis_tx", "location", "value", "timestamp", "fetched_at"]

/-- `extract_fields` (inscriptionDetail.py lines 35-77).  With no API data
every field is bound to the passed-through value or a constant — note the
source binds `Sat_Rarity` to the literal `' N/A'` with a leading space
(line 51).  With data each field is an `or`-chain over candidate keys
ending in `'N/A'` (or a passed-through value). -/
def extract_fields (data : Option ApiData) (inscriptionId nm price ts : String) :
    Record :=
  match data with
  | Option.none =>
    [("name", Value.str nm), ("inscription_id", Value.str inscriptionId),
     ("price", Value.str price), ("owner", Value.str "N/A"),
     ("image_url", Value.str "N/A"), ("previous", Value.str "N/A"),
     ("root", Value.str "N/A"), ("mime_type", Value.str "N/A"),
     ("content_type", Value.str "N/A"),
     ("inscription_number", Value.str "N/A"),
     ("Sat_Rarity", Value.str " N/A"), ("genesis_tx", Value.str "N/A"),
     ("location", Value.str "N/A"), ("value", Value.str "N/A"),
     ("timestamp", Value.str "N/A"), ("fetched_at", Value.str ts)]
  | some d =>
    [("name", Value.str (firstTruthy [apiGet d "title", apiGet d "name"] nm)),
     ("inscription_id", Value.str inscriptionId),
     ("price", Value.str (firstTruthy
        [apiGet d "price", apiGet d "listed_price", some price] "N/A")),
     ("owner", Value.str (firstTruthy
        [apiGet d "owner", apiGet d "address", apiGet d "owner_address"]
        "N/A")),
     ("image_url", Value.str (firstTruthy
        [apiGet d "image", apiGet d "content", apiGet d "content_url"]
        "N/A")),
     ("previous", Value.str (firstTruthy
        [apiGet d "prev", apiGet d "previous"] "N/A")),
     ("root", Value.str (firstTruthy [apiGet d "root"] "N/A")),
     ("mime_type", Value.str (firstTruthy
        [apiGet d "mime_type", apiGet d "mime"] "N/A")),
     ("content_type", Value.str (firstTruthy
        [apiGet d "content_type", apiGet d "content_type"] "N/A")),
     ("inscription_number", Value.str (firstTruthy
        [apiGet d "inscription_number", apiGet d "number"] "N/A")),
     ("Sat_Rarity", Value.str (firstTruthy
        [apiGet d "sat_rarity", apiGet d "rarity"] "N/A")),
     ("genesis_tx", Value.str (firstTruthy
        [apiGet d "genesis_tx", apiGet d "genesis_transaction"] "N/A")),
     ("location", Value.str (firstTruthy [apiGet d "location"] "N/A")),
     ("value", Value.str (firstTruthy [apiGet d "value"] "N/A")),
     ("timestamp", Value.str (firstTruthy
        [apiGet d "timestamp", apiGet d "created_at"] "N/A")),
     ("fetched_at", Value.str ts)]

/-- A row of the input CSV of inscriptionDetail.py; `price = none` models a
missing/NaN price cell (line 109). -/
structure CsvRow where
  inscription_id : String
  name : String
  price : Option String
deriving DecidableEq, Repr

/-- The row filter of `main` (lines 111-113): unrecognizable inscription
ids are skipped. -/
def badInscriptionId (id : String) : Bool :=
  strLower id = "unknown" || id = "" || id = "nan"

/-- The price default of line 109. -/
def priceOfRow (row : CsvRow) : String :=
  match row.price with
  | some p => strTrim p
  | Option.none => "N/A"

/-- The row loop of `main` (inscriptionDetail.py lines 106-119); the
network fetch is an oracle from inscription id to optional API data. -/
def idMainLoop (oracle : String → Option ApiData) (ts : String) :
    List CsvRow → List Record
  | [] => []
  | row :: rest =>
    let id := strTrim row.inscription_id
    if badInscriptionId id then idMainLoop oracle ts rest
    else
      extract_fields (oracle id) id (strTrim row.name) (priceOfRow row) ts ::
        idMainLoop oracle ts rest

/-! ### magiceden_full_scraper.py — price extraction (lines 76-90) -/

/-- Match `(\d+\.\d+)\s*BTC` (case-insensitive, input pre-lowercased):
leftmost capture of the mandatory-fraction decimal. -/
def scanPriceBtcStrict : List Char → Option (List Char)
  | [] => Option.none
  | c :: rest =>
    if c.isDigit then
      let ds := (c :: rest).takeWhile Char.isDigit
      match (c :: rest).drop ds.length with
      | '.' :: r2 =>
        let fs := r2.takeWhile Char.isDigit
        if !fs.isEmpty &&
            ("btc".data.isPrefixOf
              ((r2.drop fs.length).dropWhile Char.isWhitespace)) then
          some (ds ++ '.' :: fs)
        else scanPriceBtcStrict rest
      | _ => scanPriceBtcStrict rest
    else scanPriceBtcStrict rest

/-- JS `/^\d+\.\d+$/.test(line)`. -/
def jsIsDecimal (l : List Char) : Bool :=
  let ds := l.takeWhile Char.isDigit
  match l.drop ds.length with
  | '.' :: r2 => !ds.isEmpty && !r2.isEmpty && r2.all Char.isDigit
  | _ => false

/-- One line of the full-scraper price loop (lines 77-90): a BTC-suffixed
decimal sets the price; otherwise a bare decimal in `(0.001, 50)` sets it;
the loop has no break, so a later matching line overwrites an earlier
one. -/
def jsPriceStep (acc : String) (line : String) : String :=
  match scanPriceBtcStrict (strLower line).data with
  | some amt => String.mk amt ++ " BTC"
  | Option.none =>
    if jsIsDecimal line.data then
      let v := parseDec line
      if (1 : ℚ) / 1000 < v ∧ v < 50 then line ++ " BTC" else acc
    else acc

/-- The price field of `extract_precise_nft_data` for one card's text
lines, starting from the `'Unknown'` sentinel. -/
def extract_precise_price (lines : List String) : String :=
  lines.foldl jsPriceStep "Unknown"

/-! ### The scroll loops (Magiceden.py lines 49-77, model.py lines 104-112) -/

/-- State of `scroll_to_load_more`: the index of the next height
measurement, the last seen `scrollHeight`, and the consecutive
no-new-content counter. -/
structure ScrollState where
  idx : ℕ
  last : ℕ
  attempts : ℕ
deriving DecidableEq, Repr

/-- One iteration of `scroll_to_load_more` against the page-height
sequence `heights` (`heights k` = height observed after the `k`-th
scroll): `none` means the loop has exited — either the `while`
condition `scroll_attempts < 15` failed or the 3-consecutive-failures
break fired.  On new content the counter resets to 0. -/
def scrollNext (heights : ℕ → ℕ) (s : ScrollState) : Option ScrollState :=
  if 15 ≤ s.attempts then Option.none
  else
    let nh := heights s.idx
    if nh = s.last then
      if 3 ≤ s.attempts + 1 then Option.none
      else some ⟨s.idx + 1, s.last, s.attempts + 1⟩
    else some ⟨s.idx + 1, nh, 0⟩

/-- Run at most `j` iterations; `none` once the loop has exited. -/
def scrollIterate (heights : ℕ → ℕ) : ℕ → ScrollState → Option ScrollState
  | 0, s => some s
  | j + 1, s =>
    match scrollNext heights s with
    | Option.none => Option.none
    | some s' => scrollIterate heights j s'

/-- Initial state: `last_height` is the height before the first scroll. -/
def scrollInit (heights : ℕ → ℕ) : ScrollState := ⟨1, heights 0, 0⟩

/-- The loop exits after finitely many iterations. -/
def scrollTerminates (heights : ℕ → ℕ) : Prop :=
  ∃ j, scrollIterate heights j (scrollInit heights) = Option.none

/-- The loop never exits. -/
def scrollDiverges (heights : ℕ → ℕ) : Prop :=
  ∀ j, scrollIterate heights j (scrollInit heights) ≠ Option.none

/-- The lazy-loading scroll loop of model.py (lines 104-112, likewise
84-89): scroll while the target index is beyond the loaded cards and
fewer than 15 tries were made; returns the number of tries used.
`cardCounts t` is the number of cards loaded after `t` scrolls. -/
def lazyScroll (cardCounts : ℕ → ℕ) (targetIdx : ℕ) :
    ℕ → ℕ → ℕ
  | 0, tries => tries
  | fuel + 1, tries =>
    if cardCounts tries ≤ targetIdx ∧ tries < 15 then
      lazyScroll cardCounts targetIdx fuel (tries + 1)
    else tries

/-- The full lazy-loading loop (`max_scroll = 15`). -/
def lazyScrollTries (cardCounts : ℕ → ℕ) (targetIdx : ℕ) : ℕ :=
  lazyScroll cardCounts targetIdx 15 0

/-- The merged dict of `scrape_all_ordinals` before the fill loop. -/
def mergedWithTs (b d : Record) (ts : String) : Record :=
  rset (rmerge b d) "fetched_at" (Value.str ts)

/-- A concrete listing card whose element text is the scenario price. -/
def c6Element : MEElement :=
  ⟨some "https://magiceden.io/ordinals/item-details/ab12i3",
   Option.none, Option.none, Option.none, [], "0.0059 BTC"⟩

/-- Witness for `every_declared_field_present`: a concrete card with only
an href id, no detail info; the `owner` field is present and bound to the
`None` marker. -/
def c1Elem : MEElement :=
  ⟨some "/ordinals/item-details/ab12i3", Option.none, Option.none,
   Option.none, [], ""⟩

/-- A modal page offering nothing at all: no identifier strategy can
recognize anything on it. -/
def blankModalPage : ModalPage :=
  ⟨Option.none, Option.none, Option.none, [], [], [], [], Option.none,
   Option.none, Option.none⟩

/-- Witness for `no_id_handling_per_script`: an element with no id source
leaves the loop state untouched. -/
def noIdElem : MEElement :=
  ⟨Option.none, Option.none, Option.none, Option.none, [], ""⟩

/-- A modal page where owner method 1 and method 2 would both match, with
different values: the chain must return method 1's address. -/
def ownerDemoPage : ModalPage :=
  ⟨Option.none, Option.none, Option.none, [],
   ["https://mempool.space/address/bc1abc"],
   ["https://magiceden.io/u/other?tab=items"], [], Option.none, Option.none,
   Option.none⟩

/-! ### Loop-level definitions used by the claims about runs -/

/-- Cumulative snapshots: the file contents after each successive append
to `acc`. -/
def cumAppend (acc : List Record) : List Record → List (List Record)
  | [] => []
  | r :: rs => (acc ++ [r]) :: cumAppend (acc ++ [r]) rs

/-- The proper prefixes `take 1, take 2, ...` of a record list. -/
def prefixesOf (l : List Record) : List (List Record) :=
  (List.range l.length).map (fun i => l.take (i + 1))

/-- The single end-of-run CSV write of Magiceden.py's `__main__` block
(lines 706-710): `save_to_csv` is called once, after `scrape_all_ordinals`
has returned, and only when the returned data is non-empty. -/
def magicedenMainWrites (detailOf : MEElement → Record) (ts : String)
    (maxItems : ℕ) (batches : List (List MEElement)) : List (List Record) :=
  let data := scrape_all_ordinals detailOf ts maxItems batches Option.none
  if data.isEmpty then [] else [data]

/-- Invariant of the Magiceden scrape state: every kept record's id is in
the seen set, and the kept ids are pairwise distinct. -/
def MEInv (s : MEState) : Prop :=
  (∀ r ∈ s.out, ∃ i, rlookup r "inscription_id" = some (Value.str i) ∧
    i ∈ s.seen) ∧
  (s.out.map (fun r => rlookup r "inscription_id")).Nodup

/-- Invariant of the simple.py loop state: every kept recognized number is
in the seen set, and the kept recognized numbers are pairwise distinct. -/
def SimpleInv (s : SimpleState) : Prop :=
  (∀ r ∈ s.out, r.inscription_number ≠ "Unknown" →
    r.inscription_number ∈ s.seen) ∧
  ((s.out.map SimpleRecord.inscription_number).filter
    (fun n => n != "Unknown")).Nodup

/-- A card offering nothing: its inscription number is unrecognizable. -/
def blankSimpleCard : SimpleCard :=
  ⟨"", Option.none, Option.none, Option.none, Option.none, Option.none, []⟩

/-! ### Helper lemmas -/

theorem rlookup_rset (r : Record) (k : String) (v : Value) (k' : String) :
    rlookup (rset r k v) k' = if k = k' then some v else rlookup r k' := by
  induction r with
  | nil =>
    by_cases h : k = k' <;> simp [rset, rlookup, h]
  | cons p rest ih =>
    obtain ⟨k₀, v₀⟩ := p
    by_cases h0 : k₀ = k
    · subst h0
      by_cases h : k₀ = k' <;> simp [rset, rlookup, h]
    · by_cases h : k₀ = k'
      · subst h
        have hne : ¬ k = k₀ := fun hk => h0 hk.symm
        simp [rset, rlookup, h0, hne]
      · simp [rset, rlookup, h0, h, ih]

theorem rkeys_rset_of_mem (r : Record) (k : String) (v : Value)
    (h : k ∈ rkeys r) : rkeys (rset r k v) = rkeys r := by
  induction r with
  | nil => simp [rkeys] at h
  | cons p rest ih =>
    obtain ⟨k₀, v₀⟩ := p
    by_cases h0 : k₀ = k
    · simp [rset, rkeys, h0]
    · have h' : k ∈ rkeys rest := by
        simp [rkeys] at h ⊢
        rcases h with h | h
        · exact absurd h.symm h0
        · exact h
      simp [rset, rkeys, h0]
      have := ih h'
      simpa [rkeys] using this

theorem mapRarity_mem (s : String) :
    mapRarity s ∈
      ["common", "uncommon", "rare", "epic", "legendary", "mythic", "N/A"] := by
  unfold mapRarity
  split_ifs <;> simp

/-- `scrollIterate` absorbs an exited loop. -/
theorem scrollIterate_none (heights : ℕ → ℕ) (j : ℕ) (s : ScrollState)
    (h : scrollIterate heights j s = Option.none) (j' : ℕ) (hj : j ≤ j') :
    scrollIterate heights j' s = Option.none := by
  induction j' generalizing j s with
  | zero =>
    interval_cases j
    · exact h
  | succ n ih =>
    cases j with
    | zero => simp [scrollIterate] at h
    | succ m =>
      rw [scrollIterate] at h ⊢
      cases hs : scrollNext heights s with
      | none => rfl
      | some s' =>
        rw [hs] at h
        exact ih m s' h (Nat.succ_le_succ_iff.mp hj)

/-- From a point where the height sequence is constant, the scroll loop
exits within four more iterations. -/
theorem scrollIterate_const_tail (heights : ℕ → ℕ) (c : ℕ) (s : ScrollState)
    (hc : ∀ m, s.idx ≤ m → heights m = c) :
    scrollIterate heights 4 s = Option.none := by
  obtain ⟨k, last, a⟩ := s
  simp only at hc
  have hk0 : heights k = c := hc k (by omega)
  have hk1 : heights (k + 1) = c := hc (k + 1) (by omega)
  have hk2 : heights (k + 2) = c := hc (k + 2) (by omega)
  have hk3 : heights (k + 3) = c := hc (k + 3) (by omega)
  by_cases ha : 15 ≤ a
  · simp [scrollIterate, scrollNext, ha]
  · by_cases hl : heights k = last
    · -- equal measurement: the counter climbs to the break within 3 steps
      have hlast : last = c := by rw [← hl, hk0]
      subst hlast
      have ha' : a < 15 := by omega
      interval_cases a <;>
        simp [scrollIterate, scrollNext, hk0, hk1, hk2, hk3]
    · -- new content: the counter resets, then three equal measurements
      rw [hk0] at hl
      simp [scrollIterate, scrollNext, ha, hl, hk0, hk1, hk2, hk3]

/-- Stepping the iteration bound along one loop iteration. -/
theorem scrollIterate_succ (heights : ℕ → ℕ) (j : ℕ) (s : ScrollState) :
    scrollIterate heights (j + 1) s =
      match scrollNext heights s with
      | Option.none => Option.none
      | some s' => scrollIterate heights j s' := rfl

theorem scrollNext_idx (heights : ℕ → ℕ) (s s' : ScrollState)
    (h : scrollNext heights s = some s') : s'.idx = s.idx + 1 := by
  simp only [scrollNext] at h
  by_cases h1 : 15 ≤ s.attempts
  · simp [h1] at h
  · rw [if_neg h1] at h
    by_cases h2 : heights s.idx = s.last
    · rw [if_pos h2] at h
      by_cases h3 : 3 ≤ s.attempts + 1
      · simp [h3] at h
      · rw [if_neg h3] at h
        obtain rfl := (Option.some.inj h).symm
        rfl
    · rw [if_neg h2] at h
      obtain rfl := (Option.some.inj h).symm
      rfl

/-- Reach the constant tail: with `d` extra iterations the loop exits from
any state whose index is within `d` of the stabilization point. -/
theorem scrollIterate_reach (heights : ℕ → ℕ) (c N : ℕ)
    (hc : ∀ m, N ≤ m → heights m = c) :
    ∀ d s, N ≤ s.idx + d → scrollIterate heights (d + 4) s = Option.none := by
  intro d
  induction d with
  | zero =>
    intro s hs
    exact scrollIterate_const_tail heights c s
      (fun m hm => hc m (by omega))
  | succ n ih =>
    intro s hs
    have : n + 1 + 4 = (n + 4) + 1 := by omega
    rw [this, scrollIterate_succ]
    cases hnext : scrollNext heights s with
    | none => rfl
    | some s' =>
      have hidx := scrollNext_idx heights s s' hnext
      exact ih s' (by omega)

/-- The lazy-load loop uses at most `fuel` additional tries. -/
theorem lazyScroll_le (cardCounts : ℕ → ℕ) (targetIdx : ℕ) :
    ∀ fuel tries, lazyScroll cardCounts targetIdx fuel tries ≤ tries + fuel := by
  intro fuel
  induction fuel with
  | zero => intro tries; simp [lazyScroll]
  | succ n ih =>
    intro tries
    rw [lazyScroll]
    split
    · calc lazyScroll cardCounts targetIdx n (tries + 1) ≤ tries + 1 + n := ih _
        _ = tries + (n + 1) := by omega
    · omega

/-! ### Claim C9 -/

/-- C9: the rarity extractor always returns a `Sat_Rarity` value among
exactly `common`, `uncommon`, `rare`, `epic`, `legendary`, `mythic` and
`N/A` — for every modal text and on the exception path. -/
theorem rarity_value_always_allowed (x : Option String) :
    extract_rarity_info x ∈
      ["common", "uncommon", "rare", "epic", "legendary", "mythic", "N/A"] := by
  cases x with
  | none => simp [extract_rarity_info]
  | some t =>
    cases hcap : firstLabelCapture rarityLabels (strLower t) with
    | none => simp [extract_rarity_info, hcap]
    | some cap =>
      simp only [extract_rarity_info, hcap]
      exact mapRarity_mem (strLower (strTrim cap))

/-! ### Claim C6 -/

/-- C6: price extraction on the text `0.0059 BTC` yields the amount
`0.0059` (the rational `59/10000`, the exact value the decimal denotes)
with currency `BTC`: Magiceden.py binds `price_btc = 0.0059`, and the
full scraper produces the string `0.0059 BTC`. -/
theorem price_scenario_0_0059_btc :
    priceBtcOf "0.0059 BTC" = some ((59 : ℚ) / 10000) ∧
    extract_precise_price ["0.0059 BTC"] = "0.0059 BTC" ∧
    rlookup ((extract_basic_info c6Element []).getD []) "price_btc" =
      some (Value.num ((59 : ℚ) / 10000)) := by
  have hsplit : splitOnStr "0.0059" "." = ["0", "0059"] := by decide
  have hval : parseDec "0.0059" = (59 : ℚ) / 10000 := by
    rw [parseDec, hsplit]
    have h1 : digitsToNat ("0" : String).data = 0 := by decide
    have h2 : digitsToNat ("0059" : String).data = 59 := by decide
    have h3 : ("0059" : String).length = 4 := by decide
    dsimp only
    rw [h1, h2, h3]
    norm_num
  refine ⟨?_, by decide, ?_⟩
  · have h : priceBtcOf "0.0059 BTC" = some (parseDec "0.0059") := rfl
    rw [h, hval]
  · have h : (extract_basic_info c6Element []).getD [] =
        [("inscription_id", Value.str "ab12i3"),
         ("price_btc", Value.num (parseDec "0.0059"))] := rfl
    rw [h, hval]
    rfl

/-! ### Claim C4 -/

/-- C4 counterexample: on a page whose height grows at every scroll the
loop `scroll_to_load_more` never exits — the attempt counter resets on
each new-content observation, so the max-attempts bound never fires. -/
theorem scroll_diverges_on_growing_page : scrollDiverges (fun k => k) := by
  have key : ∀ j k, scrollIterate (fun k => k) j ⟨k + 1, k, 0⟩ =
      some ⟨k + 1 + j, k + j, 0⟩ := by
    intro j
    induction j with
    | zero => intro k; simp [scrollIterate]
    | succ n ih =>
      intro k
      rw [scrollIterate_succ]
      have hstep : scrollNext (fun k => k) ⟨k + 1, k, 0⟩ =
          some ⟨k + 1 + 1, k + 1, 0⟩ := by
        simp [scrollNext]
      rw [hstep]
      have h2 := ih (k + 1)
      dsimp only
      rw [h2]
      have e1 : k + 1 + 1 + n = k + 1 + (n + 1) := by omega
      have e2 : k + 1 + n = k + (n + 1) := by omega
      rw [e1, e2]
  intro j
  have hinit : scrollInit (fun k => k) = ⟨1, 0, 0⟩ := by simp [scrollInit]
  rw [hinit]
  have := key j 0
  simp only [Nat.zero_add] at this
  rw [this]
  simp

/-- C4 (amended): the lazy-load loops of model.py stop within their
15-attempt bound on every input, and Magiceden's `scroll_to_load_more`
terminates whenever the page height eventually stabilizes, via its
3-consecutive-failures break; the max-attempts bound does not cover
pages that keep producing new content (see the counterexample). -/
theorem scroll_loop_convergence :
    (∀ heights : ℕ → ℕ, ∀ N : ℕ, (∀ m, N ≤ m → heights m = heights N) →
      scrollTerminates heights) ∧
    (∀ cardCounts : ℕ → ℕ, ∀ targetIdx : ℕ,
      lazyScrollTries cardCounts targetIdx ≤ 15) := by
  constructor
  · intro heights N hc
    refine ⟨N + 4, ?_⟩
    exact scrollIterate_reach heights (heights N) N hc N (scrollInit heights)
      (by simp only [scrollInit]; omega)
  · intro cc ti
    have h := lazyScroll_le cc ti 15 0
    simpa [lazyScrollTries] using h

/-- Witness for `scroll_loop_convergence` at a constant-height page and a
constant card count. -/
theorem scroll_loop_convergence_witness :
    scrollTerminates (fun _ => 7) ∧ lazyScrollTries (fun _ => 0) 3 ≤ 15 :=
  ⟨scroll_loop_convergence.1 (fun _ => 7) 0 (fun _ _ => rfl),
   scroll_loop_convergence.2 (fun _ => 0) 3⟩

/-! ### Record fill / merge lemmas (Magiceden.py record completion) -/

theorem rlookup_fillFold (fields : List String) (r : Record) (f : String) :
    rlookup
      (fields.foldl
        (fun r g => if (rlookup r g).isSome then r else rset r g Value.null)
        r) f =
      if f ∈ fields ∧ rlookup r f = Option.none then some Value.null
      else rlookup r f := by
  induction fields generalizing r with
  | nil => simp
  | cons g rest ih =>
    simp only [List.foldl_cons]
    by_cases hg : g = f
    · subst hg
      cases hrf : rlookup r g with
      | some v => simp [hrf, ih]
      | none => simp [hrf, ih, rlookup_rset]
    · have hne : ¬ g = f := hg
      cases hrg : rlookup r g with
      | some v => simp [hrg, ih, hg, Ne.symm hg]
      | none => simp [hrg, ih, rlookup_rset, hne, hg, Ne.symm hg]

theorem rlookup_rmerge_isSome (b d : Record) (f : String)
    (h : (rlookup b f).isSome) : (rlookup (rmerge b d) f).isSome := by
  induction d generalizing b with
  | nil => simpa [rmerge] using h
  | cons kv rest ih =>
    simp only [rmerge, List.foldl_cons]
    have : (rlookup (rset b kv.1 kv.2) f).isSome := by
      rw [rlookup_rset]
      by_cases hk : kv.1 = f
      · simp [hk]
      · simpa [hk] using h
    simpa [rmerge] using ih (rset b kv.1 kv.2) this

theorem rlookup_rmerge_of_absent (b d : Record) (f : String)
    (h : rlookup d f = Option.none) : rlookup (rmerge b d) f = rlookup b f := by
  induction d generalizing b with
  | nil => simp [rmerge]
  | cons kv rest ih =>
    simp only [rlookup] at h
    by_cases hk : kv.1 = f
    · simp [hk] at h
    · simp only [hk, if_false] at h
      simp only [rmerge, List.foldl_cons]
      have := ih (rset b kv.1 kv.2) h
      simp only [rmerge] at this
      rw [this, rlookup_rset, if_neg hk]

/-- `extract_basic_info` always binds the inscription id it recognized. -/
theorem basic_info_has_id (e : MEElement) (seen : List String) (b : Record)
    (h : extract_basic_info e seen = some b) :
    ∃ i, idOfElement e = some i ∧ i ∉ seen ∧
      rlookup b "inscription_id" = some (Value.str i) := by
  unfold extract_basic_info at h
  cases hid : idOfElement e with
  | none => rw [hid] at h; exact absurd h (by simp)
  | some i =>
    rw [hid] at h
    dsimp only at h
    by_cases hmem : i ∈ seen
    · rw [if_pos hmem] at h; exact absurd h (by simp)
    · rw [if_neg hmem] at h
      refine ⟨i, rfl, hmem, ?_⟩
      obtain rfl := Option.some.inj h
      cases hn : firstNameOf e <;> cases hp : priceBtcOf e.text <;>
        simp [hn, hp, rlookup, rlookup_rset]

theorem completeData_lookup (b d : Record) (ts : String) (f : String)
    (hsome : f = "inscription_id" ∨ f = "fetched_at" →
      (rlookup (mergedWithTs b d ts) f).isSome) (hf : f ∈ meFieldnames) :
    rlookup (completeData b d ts) f =
      some ((rlookup (mergedWithTs b d ts) f).getD Value.null) := by
  have hfill := rlookup_fillFold meFillFields (mergedWithTs b d ts) f
  unfold completeData
  rw [show rset (rmerge b d) "fetched_at" (Value.str ts) =
    mergedWithTs b d ts from rfl]
  rw [hfill]
  by_cases hmem : f ∈ meFillFields
  · cases hm : rlookup (mergedWithTs b d ts) f with
    | none => simp [hmem, hm]
    | some v => simp [hmem, hm]
  · have hor : f = "inscription_id" ∨ f = "fetched_at" := by
      simp only [meFieldnames, List.mem_cons, List.not_mem_nil, or_false] at hf
      rcases hf with rfl | rfl | rfl | rfl | rfl | rfl | rfl | rfl | rfl |
        rfl | rfl | rfl <;>
        first
          | (left; rfl)
          | (right; rfl)
          | (exact absurd (by decide) hmem)
    have hs := hsome hor
    cases hm : rlookup (mergedWithTs b d ts) f with
    | none => rw [hm] at hs; simp at hs
    | some v => simp [hmem, hm]

/-! ### Key preservation through the modal extraction pipeline -/

theorem rkeys_preserve {r : Record} {k : String} {v : Value}
    (h : rkeys r = modalKeys) (hk : k ∈ modalKeys) :
    rkeys (rset r k v) = modalKeys := by
  rw [rkeys_rset_of_mem r k v (by rw [h]; exact hk), h]

theorem rkeys_nameStep (p : ModalPage) (r : Record)
    (h : rkeys r = modalKeys) : rkeys (nameStep p r) = modalKeys := by
  simp only [nameStep]
  repeat' split
  all_goals
    first
      | exact h
      | refine rkeys_preserve h (by decide)

theorem rkeys_priceStep (p : ModalPage) (r : Record)
    (h : rkeys r = modalKeys) : rkeys (priceStep p r) = modalKeys := by
  simp only [priceStep]
  repeat' split
  all_goals
    first
      | exact h
      | refine rkeys_preserve h (by decide)

theorem rkeys_inscriptionNumberStep (dt : String) (r : Record)
    (h : rkeys r = modalKeys) :
    rkeys (inscriptionNumberStep dt r) = modalKeys := by
  simp only [inscriptionNumberStep]
  repeat' split
  all_goals
    first
      | exact h
      | refine rkeys_preserve h (by decide)

theorem rkeys_ownerStep (p : ModalPage) (dt : String) (r : Record)
    (h : rkeys r = modalKeys) : rkeys (ownerStep p dt r) = modalKeys := by
  simp only [ownerStep]
  repeat' split
  all_goals
    repeat
      first
        | exact h
        | refine rkeys_preserve ?_ (by decide)

theorem rkeys_inscriptionIdStep (p : ModalPage) (dt : String) (r : Record)
    (h : rkeys r = modalKeys) :
    rkeys (inscriptionIdStep p dt r) = modalKeys := by
  simp only [inscriptionIdStep]
  repeat' split
  all_goals
    first
      | exact h
      | refine rkeys_preserve h (by decide)

theorem rkeys_genesisStep (p : ModalPage) (dt : String) (r : Record)
    (h : rkeys r = modalKeys) : rkeys (genesisStep p dt r) = modalKeys := by
  simp only [genesisStep]
  repeat' split
  all_goals
    first
      | exact h
      | refine rkeys_preserve h (by decide)

theorem rkeys_locationStep (p : ModalPage) (dt : String) (r : Record)
    (h : rkeys r = modalKeys) : rkeys (locationStep p dt r) = modalKeys := by
  simp only [locationStep]
  repeat' split
  all_goals
    repeat
      first
        | exact h
        | refine rkeys_preserve ?_ (by decide)

theorem rkeys_satStep (dt : String) (r : Record)
    (h : rkeys r = modalKeys) : rkeys (satStep dt r) = modalKeys := by
  simp only [satStep]
  repeat' split
  all_goals
    repeat
      first
        | exact h
        | refine rkeys_preserve ?_ (by decide)

theorem rkeys_imageUrlStep (r : Record)
    (h : rkeys r = modalKeys) : rkeys (imageUrlStep r) = modalKeys := by
  simp only [imageUrlStep]
  repeat' split
  all_goals
    first
      | exact h
      | refine rkeys_preserve h (by decide)

theorem rkeys_otherFieldsStep (dt : String) (r : Record)
    (h : rkeys r = modalKeys) : rkeys (otherFieldsStep dt r) = modalKeys := by
  simp only [otherFieldsStep]
  repeat' split
  all_goals
    repeat
      first
        | exact h
        | refine rkeys_preserve ?_ (by decide)

/-- Every record of the modal extractor carries exactly the declared
fields, in dict order. -/
theorem rkeys_extractModal (p : ModalPage) (idx : ℕ) (t : String) :
    rkeys (extract_ordinal_details_from_modal p idx t) = modalKeys := by
  unfold extract_ordinal_details_from_modal
  have h0 : rkeys (modalDefaults t idx) = modalKeys := by
    simp [rkeys, modalDefaults, modalKeys]
  exact rkeys_otherFieldsStep _ _
    (rkeys_imageUrlStep _
      (rkeys_satStep _ _
        (rkeys_locationStep _ _ _
          (rkeys_genesisStep _ _ _
            (rkeys_inscriptionIdStep _ _ _
              (rkeys_ownerStep _ _ _
                (rkeys_inscriptionNumberStep _ _
                  (rkeys_preserve (rkeys_priceStep _ _
                    (rkeys_nameStep _ _ h0)) (by decide)))))))))

/-- The modal record is never empty, so `if details:` always keeps it. -/
theorem keepModal_extract (p : ModalPage) (idx : ℕ) (t : String) :
    keepModal (extract_ordinal_details_from_modal p idx t) = true := by
  have h := rkeys_extractModal p idx t
  cases hr : extract_ordinal_details_from_modal p idx t with
  | nil => rw [hr] at h; simp [rkeys, modalKeys] at h
  | cons a l => simp [keepModal]

/-! ### Lookup transparency of the modal steps for untouched keys -/

theorem rlookup_nameStep (p : ModalPage) (r : Record) (k : String)
    (h1 : k ≠ "name") : rlookup (nameStep p r) k = rlookup r k := by
  simp only [nameStep]
  repeat' split
  all_goals simp [rlookup_rset, Ne.symm h1]

theorem rlookup_priceStep (p : ModalPage) (r : Record) (k : String)
    (h1 : k ≠ "price") : rlookup (priceStep p r) k = rlookup r k := by
  simp only [priceStep]
  repeat' split
  all_goals simp [rlookup_rset, Ne.symm h1]

theorem rlookup_inscriptionNumberStep (dt : String) (r : Record) (k : String)
    (h1 : k ≠ "inscription_number") :
    rlookup (inscriptionNumberStep dt r) k = rlookup r k := by
  simp only [inscriptionNumberStep]
  repeat' split
  all_goals simp [rlookup_rset, Ne.symm h1]

theorem rlookup_inscriptionIdStep (p : ModalPage) (dt : String) (r : Record)
    (k : String) (h1 : k ≠ "inscription_id") :
    rlookup (inscriptionIdStep p dt r) k = rlookup r k := by
  simp only [inscriptionIdStep]
  repeat' split
  all_goals simp [rlookup_rset, Ne.symm h1]

theorem rlookup_genesisStep (p : ModalPage) (dt : String) (r : Record)
    (k : String) (h1 : k ≠ "genesis_transaction") :
    rlookup (genesisStep p dt r) k = rlookup r k := by
  simp only [genesisStep]
  repeat' split
  all_goals simp [rlookup_rset, Ne.symm h1]

theorem rlookup_locationStep (p : ModalPage) (dt : String) (r : Record)
    (k : String) (h1 : k ≠ "location") (h2 : k ≠ "output") :
    rlookup (locationStep p dt r) k = rlookup r k := by
  simp only [locationStep]
  repeat' split
  all_goals simp [rlookup_rset, Ne.symm h1, Ne.symm h2]

theorem rlookup_satStep (dt : String) (r : Record) (k : String)
    (h1 : k ≠ "sat_number") (h2 : k ≠ "sat_name") :
    rlookup (satStep dt r) k = rlookup r k := by
  simp only [satStep]
  repeat' split
  all_goals simp [rlookup_rset, Ne.symm h1, Ne.symm h2]

theorem rlookup_imageUrlStep (r : Record) (k : String)
    (h1 : k ≠ "image_url") : rlookup (imageUrlStep r) k = rlookup r k := by
  simp only [imageUrlStep]
  repeat' split
  all_goals simp [rlookup_rset, Ne.symm h1]

theorem rlookup_otherFieldsStep (dt : String) (r : Record) (k : String)
    (h1 : k ≠ "content_type") (h2 : k ≠ "created") (h3 : k ≠ "rarity") :
    rlookup (otherFieldsStep dt r) k = rlookup r k := by
  simp only [otherFieldsStep]
  repeat' split
  all_goals simp [rlookup_rset, Ne.symm h1, Ne.symm h2, Ne.symm h3]

/-- The record before the owner chain runs still holds the owner default. -/
theorem owner_default_before_chain (p : ModalPage) (idx : ℕ) (t : String) :
    rlookup
      (inscriptionNumberStep (detailsTextOf p)
        (rset (priceStep p (nameStep p (modalDefaults t idx)))
          "full_details_text" (Value.str (detailsTextOf p)))) "owner" =
      some (Value.str "Unknown") := by
  rw [rlookup_inscriptionNumberStep _ _ _ (by decide), rlookup_rset,
    if_neg (by decide), rlookup_priceStep _ _ _ (by decide),
    rlookup_nameStep _ _ _ (by decide)]
  rfl

/-- The owner field of the final record equals the owner field right after
the owner chain: the later steps never touch it. -/
theorem owner_of_extractModal (p : ModalPage) (idx : ℕ) (t : String) :
    rlookup (extract_ordinal_details_from_modal p idx t) "owner" =
      rlookup
        (ownerStep p (detailsTextOf p)
          (inscriptionNumberStep (detailsTextOf p)
            (rset (priceStep p (nameStep p (modalDefaults t idx)))
              "full_details_text" (Value.str (detailsTextOf p))))) "owner" := by
  unfold extract_ordinal_details_from_modal
  rw [rlookup_otherFieldsStep _ _ _ (by decide) (by decide) (by decide),
    rlookup_imageUrlStep _ _ (by decide),
    rlookup_satStep _ _ _ (by decide) (by decide),
    rlookup_locationStep _ _ _ _ (by decide) (by decide),
    rlookup_genesisStep _ _ _ _ (by decide),
    rlookup_inscriptionIdStep _ _ _ _ (by decide)]

/-- Owner chain, method 1 wins (for a non-sentinel match value). -/
theorem ownerStep_m1 (p : ModalPage) (dt : String) (r : Record) (a : String)
    (ha : ownerFromMempool p.mempoolAddrHrefs = some a)
    (hne : a ≠ "Unknown") :
    rlookup (ownerStep p dt r) "owner" = some (Value.str a) := by
  simp only [ownerStep, ha]
  have h1 : rlookup (rset r "owner" (Value.str a)) "owner" =
      some (Value.str a) := by simp [rlookup_rset]
  simp [h1, hne]

/-- Owner chain, method 2 wins when method 1 found nothing. -/
theorem ownerStep_m2 (p : ModalPage) (dt : String) (r : Record) (a : String)
    (hr : rlookup r "owner" = some (Value.str "Unknown"))
    (h1 : ownerFromMempool p.mempoolAddrHrefs = Option.none)
    (ha : ownerFromUser p.userHrefs = some a) (hne : a ≠ "Unknown") :
    rlookup (ownerStep p dt r) "owner" = some (Value.str a) := by
  simp only [ownerStep, h1, ha]
  have h2 : rlookup (rset r "owner" (Value.str a)) "owner" =
      some (Value.str a) := by simp [rlookup_rset]
  simp [hr, h2, hne]

/-- Owner chain, regex fallback wins when both link methods fail. -/
theorem ownerStep_m3 (p : ModalPage) (dt : String) (r : Record) (a : String)
    (hr : rlookup r "owner" = some (Value.str "Unknown"))
    (h1 : ownerFromMempool p.mempoolAddrHrefs = Option.none)
    (h2 : ownerFromUser p.userHrefs = Option.none)
    (ha : ownerFromRegex dt = some a) :
    rlookup (ownerStep p dt r) "owner" = some (Value.str a) := by
  simp only [ownerStep, h1, h2, ha]
  simp [hr, rlookup_rset]

/-- Owner chain: sentinel when no method matches. -/
theorem ownerStep_sentinel (p : ModalPage) (dt : String) (r : Record)
    (hr : rlookup r "owner" = some (Value.str "Unknown"))
    (h1 : ownerFromMempool p.mempoolAddrHrefs = Option.none)
    (h2 : ownerFromUser p.userHrefs = Option.none)
    (h3 : ownerFromRegex dt = Option.none) :
    rlookup (ownerStep p dt r) "owner" = some (Value.str "Unknown") := by
  simp only [ownerStep, h1, h2, h3]
  simp [hr]

/-! ### Claim C1 -/

/-- C1 counterexample: with no API data, `extract_fields` binds
`Sat_Rarity` to the literal `' N/A'` with a leading space
(inscriptionDetail.py line 51) — a value that is neither a really
extracted one nor either sentinel `'N/A'`/`'Unknown'`. -/
theorem sat_rarity_stray_space_counterexample :
    rlookup (extract_fields Option.none "abc" "nm" "0.1 BTC" "ts")
        "Sat_Rarity" = some (Value.str " N/A") ∧
    (" N/A" : String) ≠ "N/A" ∧ (" N/A" : String) ≠ "Unknown" :=
  ⟨by decide, by decide, by decide⟩

/-- C1 (amended): every emitted record carries every declared field of its
script's schema — bound to the extracted/merged value when one exists and
to the script's missing-value marker otherwise (`None` in Magiceden.py's
fill loop, `'Unknown'` defaults in model.py, `'N/A'`-family constants in
inscriptionDetail.py); no declared field is ever absent. -/
theorem every_declared_field_present :
    (∀ e seen b d ts f, extract_basic_info e seen = some b →
      f ∈ meFieldnames →
      rlookup (completeData b d ts) f =
        some ((rlookup (mergedWithTs b d ts) f).getD Value.null)) ∧
    (∀ p idx t, rkeys (extract_ordinal_details_from_modal p idx t) =
      modalKeys) ∧
    (∀ data id nm pr ts, rkeys (extract_fields data id nm pr ts) =
      idFieldKeys) := by
  refine ⟨?_, rkeys_extractModal, ?_⟩
  · intro e seen b d ts f hb hf
    obtain ⟨i, hid, hmem, hbid⟩ := basic_info_has_id e seen b hb
    apply completeData_lookup
    · intro hor
      rcases hor with rfl | rfl
      · unfold mergedWithTs
        rw [rlookup_rset, if_neg (by decide)]
        exact rlookup_rmerge_isSome b d _ (by rw [hbid]; rfl)
      · unfold mergedWithTs
        rw [rlookup_rset, if_pos rfl]
        rfl
    · exact hf
  · intro data id nm pr ts
    cases data <;> simp [extract_fields, rkeys, idFieldKeys]

theorem every_declared_field_present_witness :
    rlookup (completeData [("inscription_id", Value.str "ab12i3")] [] "T")
        "owner" =
      some ((rlookup (mergedWithTs [("inscription_id", Value.str "ab12i3")]
        [] "T") "owner").getD Value.null) ∧
    rlookup (completeData [("inscription_id", Value.str "ab12i3")] [] "T")
        "owner" = some Value.null :=
  ⟨every_declared_field_present.1 c1Elem []
    [("inscription_id", Value.str "ab12i3")] [] "T" "owner" rfl (by decide),
   by decide⟩

/-! ### Claim C5 -/

/-- C5 counterexample: in model.py a listing with no recognizable
inscription id still yields a kept record (with the `'Unknown'`
sentinel) — it is emitted, not discarded. -/
theorem unknown_id_record_still_kept :
    rlookup (extract_ordinal_details_from_modal blankModalPage 0 "T")
        "inscription_id" = some (Value.str "Unknown") ∧
    keepModal (extract_ordinal_details_from_modal blankModalPage 0 "T") =
      true ∧
    (extract_multiple_ordinals "T" [some blankModalPage] 0).1.length = 1 :=
  ⟨by decide, by decide, by decide⟩

/-- C5 (amended): Magiceden.py's element loop and inscriptionDetail.py's
row loop do discard listings with no recognizable id, but model.py keeps
every record (with the `'Unknown'` sentinel) regardless. -/
theorem no_id_handling_per_script :
    (∀ detailOf ts maxItems s e, idOfElement e = Option.none →
      processElement detailOf ts maxItems s e = s) ∧
    (∀ oracle ts rows, idMainLoop oracle ts rows =
      idMainLoop oracle ts (rows.filter
        (fun row => !badInscriptionId (strTrim row.inscription_id)))) ∧
    (∀ p idx t, keepModal (extract_ordinal_details_from_modal p idx t) =
      true) := by
  refine ⟨?_, ?_, keepModal_extract⟩
  · intro detailOf ts maxItems s e hid
    have hb : extract_basic_info e s.seen = Option.none := by
      unfold extract_basic_info
      rw [hid]
    unfold processElement
    split
    · rfl
    · rw [hb]
  · intro oracle ts rows
    induction rows with
    | nil => rfl
    | cons row rest ih =>
      by_cases hbad : badInscriptionId (strTrim row.inscription_id)
      · simp [idMainLoop, hbad, List.filter_cons, ih]
      · simp [idMainLoop, hbad, List.filter_cons, ih]

theorem no_id_handling_witness :
    processElement (fun _ => []) "T" 50 ⟨[], []⟩ noIdElem = ⟨[], []⟩ :=
  no_id_handling_per_script.1 (fun _ => []) "T" 50 ⟨[], []⟩ noIdElem rfl

/-! ### Claim C3 -/

/-- C3 counterexample: when every identifier strategy fails,
`extract_basic_info` returns no record at all — the listing is discarded
and no field bound to a sentinel is returned. -/
theorem failed_chain_returns_no_sentinel :
    idOfElement noIdElem = Option.none ∧
    extract_basic_info noIdElem [] = Option.none := ⟨rfl, rfl⟩

/-- C3 (amended): first-match-wins holds for the ordered strategy chains
(for match values other than the sentinel string itself, which the guards
compare against): the href strategy of Magiceden's id chain wins over all
later strategies, model.py's owner chain returns the first method's value
and ignores later ones, and the sentinel is returned when no strategy
matches — except the identifier chain, where a full miss discards the
listing instead. -/
theorem strategy_chain_first_match_wins :
    (∀ e seen i, idFromHref e = some i → i ∉ seen →
      ∃ r, extract_basic_info e seen = some r ∧
        rlookup r "inscription_id" = some (Value.str i)) ∧
    (∀ p idx t a, a ≠ "Unknown" →
      ownerFromMempool p.mempoolAddrHrefs = some a →
      rlookup (extract_ordinal_details_from_modal p idx t) "owner" =
        some (Value.str a)) ∧
    (∀ p idx t a, a ≠ "Unknown" →
      ownerFromMempool p.mempoolAddrHrefs = Option.none →
      ownerFromUser p.userHrefs = some a →
      rlookup (extract_ordinal_details_from_modal p idx t) "owner" =
        some (Value.str a)) ∧
    (∀ p idx t a,
      ownerFromMempool p.mempoolAddrHrefs = Option.none →
      ownerFromUser p.userHrefs = Option.none →
      ownerFromRegex (detailsTextOf p) = some a →
      rlookup (extract_ordinal_details_from_modal p idx t) "owner" =
        some (Value.str a)) ∧
    (∀ p idx t,
      ownerFromMempool p.mempoolAddrHrefs = Option.none →
      ownerFromUser p.userHrefs = Option.none →
      ownerFromRegex (detailsTextOf p) = Option.none →
      rlookup (extract_ordinal_details_from_modal p idx t) "owner" =
        some (Value.str "Unknown")) := by
  refine ⟨?_, ?_, ?_, ?_, ?_⟩
  · intro e seen i hhref hmem
    have hid : idOfElement e = some i := by
      unfold idOfElement
      rw [hhref]
    have hsome : ∃ r, extract_basic_info e seen = some r := by
      unfold extract_basic_info
      rw [hid]
      dsimp only
      rw [if_neg hmem]
      exact ⟨_, rfl⟩
    obtain ⟨r, hr⟩ := hsome
    obtain ⟨i', hid', _, hbid⟩ := basic_info_has_id e seen r hr
    have hii : i = i' := Option.some.inj (hid.symm.trans hid')
    subst hii
    exact ⟨r, hr, hbid⟩
  · intro p idx t a hne ha
    rw [owner_of_extractModal]
    exact ownerStep_m1 p _ _ a ha hne
  · intro p idx t a hne h1 ha
    rw [owner_of_extractModal]
    exact ownerStep_m2 p _ _ a (owner_default_before_chain p idx t) h1 ha hne
  · intro p idx t a h1 h2 ha
    rw [owner_of_extractModal]
    exact ownerStep_m3 p _ _ a (owner_default_before_chain p idx t) h1 h2 ha
  · intro p idx t h1 h2 h3
    rw [owner_of_extractModal]
    exact ownerStep_sentinel p _ _ (owner_default_before_chain p idx t) h1 h2 h3

theorem strategy_chain_first_match_wins_witness :
    rlookup (extract_ordinal_details_from_modal ownerDemoPage 0 "T")
        "owner" = some (Value.str "bc1abc") ∧
    ownerFromUser ownerDemoPage.userHrefs = some "other" :=
  ⟨strategy_chain_first_match_wins.2.1 ownerDemoPage 0 "T" "bc1abc"
    (by decide) (by decide), by decide⟩

/-! ### Fault / write-trace lemmas -/

theorem completeData_id (b d : Record) (ts : String) (i : String)
    (hbid : rlookup b "inscription_id" = some (Value.str i))
    (hd : rlookup d "inscription_id" = Option.none) :
    rlookup (completeData b d ts) "inscription_id" = some (Value.str i) := by
  have hm : rlookup (mergedWithTs b d ts) "inscription_id" =
      some (Value.str i) := by
    unfold mergedWithTs
    rw [rlookup_rset, if_neg (by decide),
      rlookup_rmerge_of_absent b d _ hd, hbid]
  have h := completeData_lookup b d ts "inscription_id"
    (fun _ => by rw [hm]; rfl) (by decide)
  rw [h, hm]
  rfl

theorem runBatchesFault_none (detailOf : MEElement → Record) (ts : String)
    (maxItems : ℕ) :
    ∀ bs fuel s, runBatchesFault detailOf ts maxItems fuel bs Option.none s =
      runBatches detailOf ts maxItems fuel bs s := by
  intro bs
  induction bs with
  | nil => intro fuel s; cases fuel <;> rfl
  | cons b rest ih =>
    intro fuel s
    cases fuel with
    | zero => rfl
    | succ n =>
      simp only [runBatchesFault, runBatches]
      split
      · rfl
      · split
        · rfl
        · split
          · rfl
          · simpa using ih n _

theorem runBatchesFault_take (detailOf : MEElement → Record) (ts : String)
    (maxItems : ℕ) :
    ∀ bs fuel k s, runBatchesFault detailOf ts maxItems fuel bs (some k) s =
      runBatches detailOf ts maxItems fuel (bs.take k) s := by
  intro bs
  induction bs with
  | nil =>
    intro fuel k s
    cases k with
    | zero => cases fuel <;> rfl
    | succ m => simp only [List.take_nil]; cases fuel <;> rfl
  | cons b rest ih =>
    intro fuel k s
    cases k with
    | zero => cases fuel <;> rfl
    | succ m =>
      cases fuel with
      | zero => rfl
      | succ n =>
        simp only [runBatchesFault, runBatches, List.take_succ_cons]
        split
        · rfl
        · split
          · rfl
          · split
            · rfl
            · simpa using ih n m _

theorem extractGo_split (t : String) :
    ∀ pages i acc ws, extractMultipleGo t pages i acc ws =
      (acc ++ (extractMultipleGo t pages i [] []).1,
       ws ++ cumAppend acc (extractMultipleGo t pages i [] []).1) := by
  intro pages
  induction pages with
  | nil => intro i acc ws; simp [extractMultipleGo, cumAppend]
  | cons hd rest ih =>
    intro i acc ws
    cases hd with
    | none => simp [extractMultipleGo, cumAppend]
    | some p =>
      simp only [extractMultipleGo, keepModal_extract, if_pos,
        List.nil_append]
      rw [ih (i + 1) (acc ++ [extract_ordinal_details_from_modal p i t])
        (ws ++ [acc ++ [extract_ordinal_details_from_modal p i t]])]
      rw [ih (i + 1) [extract_ordinal_details_from_modal p i t]
        [[extract_ordinal_details_from_modal p i t]]]
      simp [cumAppend, List.append_assoc]

theorem cumAppend_eq_prefixes :
    ∀ (l acc : List Record), cumAppend acc l =
      (List.range l.length).map (fun i => acc ++ l.take (i + 1)) := by
  intro l
  induction l with
  | nil => intro acc; simp [cumAppend]
  | cons r rs ih =>
    intro acc
    simp only [cumAppend, ih (acc ++ [r]), List.length_cons,
      List.range_succ_eq_map, List.map_cons, List.map_map]
    simp only [List.take_succ_cons, List.take_zero, List.cons.injEq]
    refine ⟨by simp, ?_⟩
    apply List.map_congr_left
    intro i _
    simp [Function.comp, List.take_succ_cons, List.append_assoc]

theorem extractMultipleFault_take (t : String) :
    ∀ pages k i acc, extractMultipleFault t pages (some k) i acc =
      (extractMultipleGo t (pages.take k) i acc []).1 := by
  intro pages
  induction pages with
  | nil =>
    intro k i acc
    cases k <;> rfl
  | cons hd rest ih =>
    intro k i acc
    cases k with
    | zero => simp [extractMultipleFault, extractMultipleGo]
    | succ m =>
      cases hd with
      | none => simp [extractMultipleFault, extractMultipleGo]
      | some p =>
        simp only [extractMultipleFault, List.take_succ_cons,
          extractMultipleGo, keepModal_extract, if_pos, Option.map_some',
          Nat.add_sub_cancel, List.nil_append]
        rw [ih m (i + 1) (acc ++ [extract_ordinal_details_from_modal p i t])]
        rw [extractGo_split t (rest.take m) (i + 1)
          (acc ++ [extract_ordinal_details_from_modal p i t]) []]
        rw [extractGo_split t (rest.take m) (i + 1)
          (acc ++ [extract_ordinal_details_from_modal p i t])
          [acc ++ [extract_ordinal_details_from_modal p i t]]]

/-! ### Claim C7 -/

/-- C7 counterexample: simple.py's top-level `except` branch returns the
empty list — on the same input whose fault-free run keeps a record, the
faulted run discards the partial results instead of returning them. -/
theorem simple_toplevel_discards_partials :
    extract_ordinal_data [blankSimpleCard, blankSimpleCard] true = [] ∧
    (extract_ordinal_data [blankSimpleCard, blankSimpleCard] false).length
      = 1 := ⟨rfl, rfl⟩

/-- C7 (amended): Magiceden.py's and model.py's top-level handlers return
exactly the records accumulated before the fault, but simple.py's handler
returns the empty list, discarding its partial results. -/
theorem toplevel_failure_partial_results :
    (∀ detailOf ts maxItems batches k,
      scrape_all_ordinals detailOf ts maxItems batches (some k) =
        scrape_all_ordinals detailOf ts maxItems (batches.take k)
          Option.none) ∧
    (∀ t pages k i acc, extractMultipleFault t pages (some k) i acc =
      (extractMultipleGo t (pages.take k) i acc []).1) ∧
    (∀ cards, extract_ordinal_data cards true = []) := by
  refine ⟨?_, extractMultipleFault_take, fun cards => rfl⟩
  intro detailOf ts maxItems batches k
  unfold scrape_all_ordinals
  rw [runBatchesFault_take detailOf ts maxItems batches 8 k,
    runBatchesFault_none detailOf ts maxItems (batches.take k) 8]

/-! ### Claim C8 -/

/-- C8 counterexample: in model.py the output file is rewritten after each
kept record — a two-listing run produces two writes, the first while the
pass still has a listing to go. -/
theorem file_rewritten_during_pass :
    (extract_multiple_ordinals "T"
      [some blankModalPage, some blankModalPage] 0).2.length = 2 ∧
    ((extract_multiple_ordinals "T"
      [some blankModalPage, some blankModalPage] 0).2.headD []).length = 1 ∧
    (extract_multiple_ordinals "T"
      [some blankModalPage, some blankModalPage] 0).1.length = 2 :=
  ⟨rfl, rfl, rfl⟩

/-- C8 (amended): Magiceden.py keeps records in memory and performs at
most one write, after the run; model.py's write trace is the full prefix
chain of its record list — one write per kept record, during the pass. -/
theorem write_trace_shape :
    (∀ t pages i, (extract_multiple_ordinals t pages i).2 =
      prefixesOf (extract_multiple_ordinals t pages i).1) ∧
    (∀ detailOf ts maxItems batches,
      (magicedenMainWrites detailOf ts maxItems batches).length ≤ 1) := by
  constructor
  · intro t pages i
    unfold extract_multiple_ordinals
    rw [extractGo_split t pages i [] []]
    simp only [List.nil_append]
    rw [cumAppend_eq_prefixes]
    unfold prefixesOf
    apply List.map_congr_left
    intro j _
    simp
  · intro detailOf ts maxItems batches
    by_cases hdata :
      (scrape_all_ordinals detailOf ts maxItems batches Option.none).isEmpty
    · simp [magicedenMainWrites, hdata]
    · simp [magicedenMainWrites, hdata]

/-! ### Claim C2 — deduplication invariants -/

theorem MEInv_processElement (detailOf : MEElement → Record) (ts : String)
    (maxItems : ℕ)
    (hd : ∀ e, rlookup (detailOf e) "inscription_id" = Option.none)
    (s : MEState) (e : MEElement) (h : MEInv s) :
    MEInv (processElement detailOf ts maxItems s e) := by
  unfold processElement
  split
  · exact h
  · cases hb : extract_basic_info e s.seen with
    | none => exact h
    | some b =>
      obtain ⟨i, hid, hmem, hbid⟩ := basic_info_has_id e s.seen b hb
      dsimp only
      rw [hbid]
      dsimp only
      rw [if_neg hmem]
      have hcid : rlookup (completeData b (detailOf e) ts) "inscription_id"
          = some (Value.str i) :=
        completeData_id b (detailOf e) ts i hbid (hd e)
      constructor
      · intro r hr
        rcases List.mem_append.mp hr with hr | hr
        · obtain ⟨j, hj, hjs⟩ := h.1 r hr
          exact ⟨j, hj, List.mem_cons_of_mem _ hjs⟩
        · have heq : r = completeData b (detailOf e) ts := by simpa using hr
          subst heq
          exact ⟨i, hcid, List.mem_cons_self _ _⟩
      · rw [List.map_append]
        refine List.nodup_append.mpr ⟨h.2, by simp, ?_⟩
        intro x hx hx2
        have hx2' : x = rlookup (completeData b (detailOf e) ts)
            "inscription_id" := by simpa using hx2
        rw [hx2', hcid] at hx
        obtain ⟨r, hr, hrx⟩ := List.mem_map.mp hx
        obtain ⟨j, hj, hjs⟩ := h.1 r hr
        rw [hj] at hrx
        have hji : j = i := Value.str.inj (Option.some.inj hrx)
        subst hji
        exact hmem hjs

theorem MEInv_fold (detailOf : MEElement → Record) (ts : String)
    (maxItems : ℕ)
    (hd : ∀ e, rlookup (detailOf e) "inscription_id" = Option.none) :
    ∀ (es : List MEElement) (s : MEState), MEInv s →
      MEInv (es.foldl (processElement detailOf ts maxItems) s) := by
  intro es
  induction es with
  | nil => intro s h; exact h
  | cons e rest ih =>
    intro s h
    exact ih _ (MEInv_processElement detailOf ts maxItems hd s e h)

theorem MEInv_runBatches (detailOf : MEElement → Record) (ts : String)
    (maxItems : ℕ)
    (hd : ∀ e, rlookup (detailOf e) "inscription_id" = Option.none) :
    ∀ (bs : List (List MEElement)) (fuel : ℕ) (s : MEState), MEInv s →
      MEInv (runBatches detailOf ts maxItems fuel bs s) := by
  intro bs
  induction bs with
  | nil => intro fuel s h; cases fuel <;> exact h
  | cons b rest ih =>
    intro fuel s h
    cases fuel with
    | zero => exact h
    | succ n =>
      simp only [runBatches]
      split
      · exact h
      · split
        · exact h
        · split
          · exact MEInv_fold detailOf ts maxItems hd b s h
          · exact ih n _ (MEInv_fold detailOf ts maxItems hd b s h)

theorem SimpleInv_loop (cards : List SimpleCard) :
    ∀ (fuel : ℕ) (s : SimpleState), SimpleInv s →
      SimpleInv (simpleLoop cards fuel s) := by
  intro fuel
  induction fuel with
  | zero => intro s h; exact h
  | succ n ih =>
    intro s h
    simp only [simpleLoop]
    by_cases hcond : s.processed < 10 ∧ s.i < 20
    · rw [if_pos hcond]
      cases hc : cards.get? s.i with
      | none => exact h
      | some c =>
        dsimp only
        by_cases hpre : cardNumberOf c ≠ "Unknown" ∧ cardNumberOf c ∈ s.seen
        · rw [if_pos hpre]
          exact ih _ h
        · rw [if_neg hpre]
          by_cases hfin :
            (buildOrdinal c (cardNumberOf c)
              (s.processed + 1)).inscription_number ≠ "Unknown" ∧
            (buildOrdinal c (cardNumberOf c)
              (s.processed + 1)).inscription_number ∈ s.seen
          · rw [if_pos hfin]
            exact ih _ h
          · rw [if_neg hfin]
            apply ih
            by_cases hu : (buildOrdinal c (cardNumberOf c)
                (s.processed + 1)).inscription_number = "Unknown"
            · rw [if_neg (by simp [hu])]
              constructor
              · intro r hr hnum
                rcases List.mem_append.mp hr with hr | hr
                · exact h.1 r hr hnum
                · have heq : r = buildOrdinal c (cardNumberOf c)
                      (s.processed + 1) := by simpa using hr
                  subst heq
                  exact absurd hu hnum
              · simp only [List.map_append, List.filter_append]
                have hf : (([buildOrdinal c (cardNumberOf c)
                    (s.processed + 1)].map
                    SimpleRecord.inscription_number).filter
                    (fun name => name != "Unknown")) = [] := by
                  simp [hu]
                rw [hf, List.append_nil]
                exact h.2
            · have hnot : (buildOrdinal c (cardNumberOf c)
                  (s.processed + 1)).inscription_number ∉ s.seen :=
                fun hm => hfin ⟨hu, hm⟩
              rw [if_pos hu]
              constructor
              · intro r hr hnum
                rcases List.mem_append.mp hr with hr | hr
                · exact List.mem_cons_of_mem _ (h.1 r hr hnum)
                · have heq : r = buildOrdinal c (cardNumberOf c)
                      (s.processed + 1) := by simpa using hr
                  subst heq
                  exact List.mem_cons_self _ _
              · simp only [List.map_append, List.filter_append]
                refine List.nodup_append.mpr ⟨h.2, by simp [hu], ?_⟩
                intro x hx hx2
                have hpair : x = (buildOrdinal c (cardNumberOf c)
                    (s.processed + 1)).inscription_number ∧
                    ¬ x = "Unknown" := by simpa using hx2
                obtain ⟨hx2', _⟩ := hpair
                subst hx2'
                obtain ⟨hx1, _⟩ := List.mem_filter.mp hx
                obtain ⟨r, hr, hrx⟩ := List.mem_map.mp hx1
                have := h.1 r hr (by rw [hrx]; exact hu)
                rw [hrx] at this
                exact hnot this
    · rw [if_neg hcond]
      exact h

/-- C2: within one run, the seen-identifier set makes every recognized
identifier yield at most one kept record: the Magiceden run's
inscription-id column is duplicate-free, and the simple.py run's
recognized inscription numbers are duplicate-free. -/
theorem dedup_unique_record_per_identifier :
    (∀ detailOf ts maxItems batches fault,
      (∀ e, rlookup (detailOf e) "inscription_id" = Option.none) →
      ((scrape_all_ordinals detailOf ts maxItems batches fault).map
        (fun r => rlookup r "inscription_id")).Nodup) ∧
    (∀ cards topFault,
      (((extract_ordinal_data cards topFault).map
        SimpleRecord.inscription_number).filter
        (fun n => n != "Unknown")).Nodup) := by
  constructor
  · intro detailOf ts maxItems batches fault hd
    have hinv : MEInv ⟨[], []⟩ := ⟨by intro r hr; simp at hr, by simp⟩
    unfold scrape_all_ordinals
    cases fault with
    | none =>
      rw [runBatchesFault_none detailOf ts maxItems batches 8]
      exact (MEInv_runBatches detailOf ts maxItems hd batches 8 _ hinv).2
    | some k =>
      rw [runBatchesFault_take detailOf ts maxItems batches 8 k]
      exact (MEInv_runBatches detailOf ts maxItems hd (batches.take k) 8 _
        hinv).2
  · intro cards topFault
    cases topFault with
    | true => simp [extract_ordinal_data]
    | false =>
      have hinv : SimpleInv ⟨1, 0, [], []⟩ :=
        ⟨by intro r hr; simp at hr, by simp⟩
      exact (SimpleInv_loop cards 19 _ hinv).2

theorem dedup_unique_record_per_identifier_witness :
    ((scrape_all_ordinals (fun _ => []) "T" 10 [[c1Elem]] Option.none).map
      (fun r => rlookup r "inscription_id")).Nodup ∧
    (((extract_ordinal_data [blankSimpleCard] false).map
      SimpleRecord.inscription_number).filter
      (fun n => n != "Unknown")).Nodup :=
  ⟨dedup_unique_record_per_identifier.1 (fun _ => []) "T" 10 [[c1Elem]]
    Option.none (fun _ => rfl),
   dedup_unique_record_per_identifier.2 [blankSimpleCard] false⟩

/-! ### Claim C10 -/

/-- The image phase never touches the inscription number. -/
theorem imagePhase_number (c : SimpleCard) (o : SimpleRecord) :
    (imagePhase c o).inscription_number = o.inscription_number := by
  simp only [imagePhase]
  repeat' split
  all_goals rfl

theorem pricePhase_number (c : SimpleCard) (o : SimpleRecord) :
    (pricePhase c o).inscription_number = o.inscription_number := by
  simp only [pricePhase]
  repeat' split
  all_goals rfl

theorem fallbackNamePhase_number (c : SimpleCard) (o : SimpleRecord) :
    (fallbackNamePhase c o).inscription_number = o.inscription_number := by
  simp only [fallbackNamePhase]
  repeat' split
  all_goals rfl

theorem cardNumPhase_number_known (cardNum : String) (o : SimpleRecord)
    (hn : cardNum ≠ "Unknown") :
    (cardNumPhase cardNum o).inscription_number ≠ "Unknown" := by
  simp only [cardNumPhase]
  split
  · split <;> simpa using hn
  · rename_i hcond
    intro hu
    simp [hu, hn] at hcond

/-- With a recognized card number, the built record's number can never be
the sentinel: the card-number fallback fills it in. -/
theorem buildOrdinal_number_known (c : SimpleCard) (n : String) (idx : ℕ)
    (hn : n ≠ "Unknown") :
    (buildOrdinal c n idx).inscription_number ≠ "Unknown" := by
  unfold buildOrdinal
  rw [imagePhase_number, pricePhase_number, fallbackNamePhase_number]
  exact cardNumPhase_number_known n _ hn

/-- C10: a record whose resolved inscription number is `'Unknown'` is
always appended: the loop neither consults nor updates the seen set for
it (the state equation holds for every seen set, which stays unchanged),
so distinct unrecognizable cards each produce a kept record. -/
theorem unknown_number_record_always_appended :
    (∀ cards fuel s c,
      cards.get? s.i = some c → s.processed < 10 → s.i < 20 →
      (buildOrdinal c (cardNumberOf c)
        (s.processed + 1)).inscription_number = "Unknown" →
      simpleLoop cards (fuel + 1) s =
        simpleLoop cards fuel
          ⟨s.i + 1, s.processed + 1, s.seen,
           s.out ++ [buildOrdinal c (cardNumberOf c) (s.processed + 1)]⟩) ∧
    (extract_ordinal_data
      [blankSimpleCard, blankSimpleCard, blankSimpleCard] false).length =
      2 := by
  constructor
  · intro cards fuel s c hc hp hi hU
    have hcn : cardNumberOf c = "Unknown" := by
      by_contra hne
      exact buildOrdinal_number_known c (cardNumberOf c) (s.processed + 1)
        hne hU
    simp only [simpleLoop]
    rw [if_pos ⟨hp, hi⟩, hc]
    dsimp only
    rw [if_neg (fun hx => hx.1 hcn)]
    rw [if_neg (fun hx => hx.1 hU)]
    rw [if_neg (by simp [hU])]
  · rfl

theorem unknown_number_record_always_appended_witness :
    simpleLoop [blankSimpleCard, blankSimpleCard, blankSimpleCard] 19
        ⟨1, 0, [], []⟩ =
      simpleLoop [blankSimpleCard, blankSimpleCard, blankSimpleCard] 18
        ⟨1 + 1, 0 + 1, [],
         [] ++ [buildOrdinal blankSimpleCard
           (cardNumberOf blankSimpleCard) (0 + 1)]⟩ :=
  unknown_number_record_always_appended.1
    [blankSimpleCard, blankSimpleCard, blankSimpleCard] 18 ⟨1, 0, [], []⟩
    blankSimpleCard rfl (by decide) (by decide) (by decide)

end Scraper
